import Mathlib

/-!
# update-task: a shallow embedding of `index.go`

The program is a single `main` that parses five flags, checks that they are
present, and then drives four calls of the ECS client in sequence
(`DescribeTaskDefinition`, `RegisterTaskDefinition`, `UpdateService`,
`WaitUntilServicesStable`), rewriting container images between the first and
the second.

The embedding makes the outside world explicit:

* the parsed flags are a record `Flags`;
* the ECS client and the wall clock are a record `World` of response functions;
* a run of `main` is a value `Run`: the client calls made, in order, with
  their request payloads; the lines written to standard output, in order; and
  how the run ended.

Go strings are modelled by `String`; the two library functions the program
uses on them (`strings.Split` with a one-character separator and
`strings.Contains`) are defined below on the underlying character lists.
Every Go pointer that the program dereferences is an `Option`, and a
dereference of `none` ends the run with `Exit.panicked`.

`session.NewSession` makes no remote call and `main` never tests the error it
returns: when it fails the session is nil, and `ecs.New(sess)` dereferences
it, so the run faults after the echo lines without any remote call. The
outcome of `session.NewSession` is part of `World`. Each client operation is called
at most once in a run, so a response that is a function of the request loses
nothing. The elements of `ContainerDefinitions` are pointers in Go; two
elements pointing to one container behave like two equal containers here,
because an entry always contains its own path: once the first is rewritten to
the entry, the test on the second succeeds and writes the same value.
-/

namespace UpdateTask

/-! ## Strings -/

/-- Pieces of a character list between occurrences of `sep`. -/
def splitChars (sep : Char) : List Char → List (List Char)
  | [] => [[]]
  | c :: cs =>
    if c = sep then [] :: splitChars sep cs
    else
      match splitChars sep cs with
      | [] => [[c]]
      | p :: ps => (c :: p) :: ps

/-- Go `strings.Split(s, sep)` for a one-character separator, as at both call
sites of the program (`","` and `":"`): the substrings of `s` between the
occurrences of `sep`, so one more piece than there are separators. -/
def Split (s : String) (sep : Char) : List String :=
  (splitChars sep s.data).map String.mk

/-- Whether `sub` occurs in a character list as a contiguous block. -/
def containsChars : List Char → List Char → Bool
  | [], sub => sub.isEmpty
  | c :: cs, sub => sub.isPrefixOf (c :: cs) || containsChars cs sub

/-- Go `strings.Contains(s, substr)`: `substr` occurs within `s`; the empty
string occurs in every string. -/
def Contains (s substr : String) : Bool :=
  containsChars s.data substr.data

/-- Go `strconv.FormatInt(i, 10)`: decimal digits, with a leading minus sign
for a negative number. -/
def FormatInt (i : Int) : String :=
  match i with
  | Int.ofNat n => Nat.repr n
  | Int.negSucc n => "-" ++ Nat.repr (n + 1)

/-- What `fmt.Println` writes for string operands, without the final newline:
the operands separated by single spaces. -/
def Sprintln : List String → String
  | [] => ""
  | [a] => a
  | a :: b :: rest => a ++ " " ++ Sprintln (b :: rest)

/-! ## Data model (the fields of the ECS SDK types that the program touches) -/

/-- The five flags after `flag.Parse()`; each defaults to the empty string. -/
structure Flags where
  clusterName : String
  serviceName : String
  taskFamily : String
  imageVersions : String
  region : String
  deriving DecidableEq, Repr

/-- A Go `error` value as the program inspects it: either it is an
`awserr.Error` with a `Code()` and an `Error()` text, or it is any other error
with just its `Error()` text. -/
inductive GoError where
  | awserr (code : String) (text : String)
  | other (text : String)
  deriving DecidableEq, Repr

/-- The string returned by `Error()`. -/
def GoError.text : GoError → String
  | GoError.awserr _ t => t
  | GoError.other t => t

/-- An `ecs.ContainerDefinition`: the `Image` pointer, and every other field
carried as one untouched payload. -/
structure ContainerDefinition where
  Image : Option String
  others : String
  deriving DecidableEq, Repr

/-- An `ecs.TaskDefinition`, restricted to the fields `main` reads. The list
fields are passed on as they are, so their elements are kept abstract. -/
structure TaskDefinition where
  ContainerDefinitions : List ContainerDefinition
  ExecutionRoleArn : Option String
  TaskRoleArn : Option String
  NetworkMode : Option String
  Volumes : List String
  PlacementConstraints : List String
  RequiresCompatibilities : List String
  Cpu : Option String
  Memory : Option String
  Revision : Option Int
  deriving DecidableEq, Repr

structure DescribeTaskDefinitionInput where
  TaskDefinition : Option String
  deriving DecidableEq, Repr

structure DescribeTaskDefinitionOutput where
  TaskDefinition : Option TaskDefinition
  deriving DecidableEq, Repr

structure RegisterTaskDefinitionInput where
  ContainerDefinitions : List ContainerDefinition
  Family : Option String
  ExecutionRoleArn : Option String
  TaskRoleArn : Option String
  NetworkMode : Option String
  Volumes : List String
  PlacementConstraints : List String
  RequiresCompatibilities : List String
  Cpu : Option String
  Memory : Option String
  deriving DecidableEq, Repr

structure RegisterTaskDefinitionOutput where
  TaskDefinition : Option TaskDefinition
  deriving DecidableEq, Repr

structure UpdateServiceInput where
  Cluster : Option String
  Service : Option String
  TaskDefinition : Option String
  deriving DecidableEq, Repr

/-- An `ecs.UpdateServiceOutput`; the program only prints it, so it is
represented by the text `fmt.Println` writes for it. -/
structure UpdateServiceOutput where
  printed : String
  deriving DecidableEq, Repr

structure DescribeServicesInput where
  Cluster : Option String
  Services : List (Option String)
  deriving DecidableEq, Repr

/-- The ECS client as `main` sees it, and the wall clock. `NewSession region`
is the error returned by `session.NewSession` for the region, `none` when the
session is built; the session returned with an error is nil. `Now n` is the
text of the `n`-th `time.Now().String()` reading of the run. -/
structure World where
  NewSession : String → Option GoError
  DescribeTaskDefinition : DescribeTaskDefinitionInput → Except GoError DescribeTaskDefinitionOutput
  RegisterTaskDefinition : RegisterTaskDefinitionInput → Except GoError RegisterTaskDefinitionOutput
  UpdateService : UpdateServiceInput → Except GoError UpdateServiceOutput
  WaitUntilServicesStable : DescribeServicesInput → Option GoError
  Now : Nat → String

/-- One call of the ECS client, with its request. -/
inductive Call where
  | DescribeTaskDefinition (input : DescribeTaskDefinitionInput)
  | RegisterTaskDefinition (input : RegisterTaskDefinitionInput)
  | UpdateService (input : UpdateServiceInput)
  | WaitUntilServicesStable (input : DescribeServicesInput)
  deriving DecidableEq, Repr

/-- Which of the four operations a call is. -/
inductive Op where
  | describe
  | register
  | update
  | wait
  deriving DecidableEq, Repr

def Call.op : Call → Op
  | Call.DescribeTaskDefinition _ => Op.describe
  | Call.RegisterTaskDefinition _ => Op.register
  | Call.UpdateService _ => Op.update
  | Call.WaitUntilServicesStable _ => Op.wait

/-- How a run of `main` ends: it reaches the end of the function, it leaves
through one of the `return` statements, or a nil pointer is dereferenced. -/
inductive Exit where
  | completed
  | returned
  | panicked
  deriving DecidableEq, Repr

/-- The observable behaviour of one run. -/
structure Run where
  calls : List Call
  stdout : List String
  exit : Exit
  deriving DecidableEq, Repr

/-! ## Constants of the program and of the SDK -/

def noClusterMsg : String :=
  "exit: No CLUSTER NAME specified, please use option: -c Example: -c ctrade-TEST-cluster"

def noServiceMsg : String :=
  "exit: No SERVICE NAME specified, please use option: -s Example: -s bff"

def noFamilyMsg : String :=
  "exit: No TASK FAMILY specified, please use option: -t Example: -t bff-TEST"

def noVersionMsg : String :=
  "exit: No IMAGE VERSION specified, please use option: -v Example: -v registry.gitlab.com/modulus-derivatives/goesoteric/bff:20201012.1"

def noRegionMsg : String :=
  "exit: No REGION specified, please use option: -r Example: -r us-west-2"

def badVersionMsg : String :=
  "exit: value of -v has to be like <image path>:<image version>"

def ErrCodeServerException : String := "ServerException"
def ErrCodeClientException : String := "ClientException"
def ErrCodeInvalidParameterException : String := "InvalidParameterException"
def ErrCodeClusterNotFoundException : String := "ClusterNotFoundException"
def ErrCodeServiceNotFoundException : String := "ServiceNotFoundException"
def ErrCodeServiceNotActiveException : String := "ServiceNotActiveException"
def ErrCodePlatformUnknownException : String := "PlatformUnknownException"
def ErrCodePlatformTaskDefinitionIncompatibilityException : String :=
  "PlatformTaskDefinitionIncompatibilityException"
def ErrCodeAccessDeniedException : String := "AccessDeniedException"

/-! ## The program -/

/-- The error branch after `DescribeTaskDefinition` and after
`RegisterTaskDefinition` (the two `switch` blocks are identical): the line
printed for `err`. -/
def fetchErrorLine (err : GoError) : String :=
  match err with
  | GoError.awserr code text =>
    if code = ErrCodeServerException then Sprintln [ErrCodeServerException, text]
    else if code = ErrCodeClientException then Sprintln [ErrCodeClientException, text]
    else if code = ErrCodeInvalidParameterException then
      Sprintln [ErrCodeInvalidParameterException, text]
    else Sprintln [text]
  | GoError.other text => Sprintln [text]

/-- The error branch after `UpdateService`: the line printed for `err`. -/
def updateErrorLine (err : GoError) : String :=
  match err with
  | GoError.awserr code text =>
    if code = ErrCodeServerException then Sprintln [ErrCodeServerException, text]
    else if code = ErrCodeClientException then Sprintln [ErrCodeClientException, text]
    else if code = ErrCodeInvalidParameterException then
      Sprintln [ErrCodeInvalidParameterException, text]
    else if code = ErrCodeClusterNotFoundException then
      Sprintln [ErrCodeClusterNotFoundException, text]
    else if code = ErrCodeServiceNotFoundException then
      Sprintln [ErrCodeServiceNotFoundException, text]
    else if code = ErrCodeServiceNotActiveException then
      Sprintln [ErrCodeServiceNotActiveException, text]
    else if code = ErrCodePlatformUnknownException then
      Sprintln [ErrCodePlatformUnknownException, text]
    else if code = ErrCodePlatformTaskDefinitionIncompatibilityException then
      Sprintln [ErrCodePlatformTaskDefinitionIncompatibilityException, text]
    else if code = ErrCodeAccessDeniedException then
      Sprintln [ErrCodeAccessDeniedException, text]
    else Sprintln [text]
  | GoError.other text => Sprintln [text]

/-- The inner loop over `latestContainerDef` for one input entry: a container
whose image contains `path` gets `entry` as its image. `none` when an `Image`
pointer that the loop dereferences is nil. -/
def rewriteContainers (entry path : String) :
    List ContainerDefinition → Option (List ContainerDefinition)
  | [] => some []
  | c :: cs =>
    match c.Image with
    | none => none
    | some image =>
      let c1 := if Contains image path then { c with Image := some entry } else c
      match rewriteContainers entry path cs with
      | none => none
      | some cs1 => some (c1 :: cs1)

/-- How the loop over `inputImageVersions` ends. -/
inductive Rewritten where
  | done (latestContainerDef : List ContainerDefinition)
  | badEntry
  | nilImage
  deriving DecidableEq, Repr

/-- The outer loop over `inputImageVersions`: each entry is split on `":"`;
an entry that does not give two pieces stops the run, any other entry is
applied to every container. -/
def rewriteImages : List String → List ContainerDefinition → Rewritten
  | [], latestContainerDef => Rewritten.done latestContainerDef
  | currentInputNewImageVersion :: rest, latestContainerDef =>
    let currentInputNewImageVersionSplit := Split currentInputNewImageVersion ':'
    if currentInputNewImageVersionSplit.length ≠ 2 then Rewritten.badEntry
    else
      match rewriteContainers currentInputNewImageVersion
          (currentInputNewImageVersionSplit.getD 0 "") latestContainerDef with
      | none => Rewritten.nilImage
      | some latestContainerDef1 => rewriteImages rest latestContainerDef1

/-- The `ecs.RegisterTaskDefinitionInput` literal; `none` when one of the five
dereferenced pointers of the fetched definition is nil. -/
def taskDefinitionInput (taskFamily : String) (td : TaskDefinition)
    (latestContainerDef : List ContainerDefinition) : Option RegisterTaskDefinitionInput :=
  match td.ExecutionRoleArn, td.TaskRoleArn, td.NetworkMode, td.Cpu, td.Memory with
  | some executionRoleArn, some taskRoleArn, some networkMode, some cpu, some memory =>
    some {
      ContainerDefinitions := latestContainerDef
      Family := some taskFamily
      ExecutionRoleArn := some executionRoleArn
      TaskRoleArn := some taskRoleArn
      NetworkMode := some networkMode
      Volumes := td.Volumes
      PlacementConstraints := td.PlacementConstraints
      RequiresCompatibilities := td.RequiresCompatibilities
      Cpu := some cpu
      Memory := some memory }
  | _, _, _, _, _ => none

/-- The lines echoing the five flags. -/
def echoLines (f : Flags) : List String :=
  [ Sprintln ["Cluster name: ", f.clusterName],
    Sprintln ["Service name: ", f.serviceName],
    Sprintln ["Task family name: ", f.taskFamily],
    Sprintln ["New container image version: ", f.imageVersions],
    Sprintln ["Region: ", f.region] ]

/-- The part of `main` from the `UpdateService` call to the end. -/
def updateAndWait (w : World) (f : Flags) (calls : List Call) (out : List String)
    (taskDefRevision : String) : Run :=
  let updateServiceInput : UpdateServiceInput :=
    { Cluster := some f.clusterName
      Service := some f.serviceName
      TaskDefinition := some (f.taskFamily ++ ":" ++ taskDefRevision) }
  let out1 := out ++ ["Started updating service(" ++ f.serviceName ++ "): " ++ w.Now 0]
  let calls1 := calls ++ [Call.UpdateService updateServiceInput]
  match w.UpdateService updateServiceInput with
  | Except.error err => ⟨calls1, out1 ++ [updateErrorLine err], Exit.returned⟩
  | Except.ok updateServiceResult =>
    let out2 := out1 ++ ["Update service result:", updateServiceResult.printed]
    let describeServicesInput : DescribeServicesInput :=
      { Cluster := some f.clusterName, Services := [some f.serviceName] }
    let calls2 := calls1 ++ [Call.WaitUntilServicesStable describeServicesInput]
    match w.WaitUntilServicesStable describeServicesInput with
    | some waitErr => ⟨calls2, out2 ++ [Sprintln [waitErr.text]], Exit.returned⟩
    | none => ⟨calls2, out2 ++ ["Done: " ++ w.Now 1], Exit.completed⟩

/-- The part of `main` from the rewrite loop to the `RegisterTaskDefinition`
call and the formatting of the new revision. -/
def rewriteAndRegister (w : World) (f : Flags) (calls : List Call) (out : List String)
    (td : TaskDefinition) : Run :=
  let inputImageVersions := Split f.imageVersions ','
  match rewriteImages inputImageVersions td.ContainerDefinitions with
  | Rewritten.badEntry => ⟨calls, out ++ [badVersionMsg], Exit.returned⟩
  | Rewritten.nilImage => ⟨calls, out, Exit.panicked⟩
  | Rewritten.done latestContainerDef =>
    match taskDefinitionInput f.taskFamily td latestContainerDef with
    | none => ⟨calls, out, Exit.panicked⟩
    | some input =>
      let calls1 := calls ++ [Call.RegisterTaskDefinition input]
      match w.RegisterTaskDefinition input with
      | Except.error err => ⟨calls1, out ++ [fetchErrorLine err], Exit.returned⟩
      | Except.ok taskDefWithNewImage =>
        match taskDefWithNewImage.TaskDefinition with
        | none => ⟨calls1, out, Exit.panicked⟩
        | some newTd =>
          match newTd.Revision with
          | none => ⟨calls1, out, Exit.panicked⟩
          | some revision =>
            let taskDefRevision := FormatInt revision
            updateAndWait w f calls1
              (out ++ ["Task Definition registered: " ++ f.taskFamily ++ ":" ++ taskDefRevision])
              taskDefRevision

/-- The function `main` of `index.go`, from after `flag.Parse()`. The error
of `session.NewSession` is overwritten without being tested; with a nil
session `ecs.New(sess)` faults. -/
def main (w : World) (f : Flags) : Run :=
  if f.clusterName = "" then ⟨[], [noClusterMsg], Exit.returned⟩
  else if f.serviceName = "" then ⟨[], [noServiceMsg], Exit.returned⟩
  else if f.taskFamily = "" then ⟨[], [noFamilyMsg], Exit.returned⟩
  else if f.imageVersions = "" then ⟨[], [noVersionMsg], Exit.returned⟩
  else if f.region = "" then ⟨[], [noRegionMsg], Exit.returned⟩
  else
    match w.NewSession f.region with
    | some _ => ⟨[], echoLines f, Exit.panicked⟩
    | none =>
      let describeTaskDefinitionInput : DescribeTaskDefinitionInput :=
        { TaskDefinition := some f.taskFamily }
      let calls := [Call.DescribeTaskDefinition describeTaskDefinitionInput]
      match w.DescribeTaskDefinition describeTaskDefinitionInput with
      | Except.error err => ⟨calls, echoLines f ++ [fetchErrorLine err], Exit.returned⟩
      | Except.ok latestTaskDef =>
        match latestTaskDef.TaskDefinition with
        | none => ⟨calls, echoLines f, Exit.panicked⟩
        | some td => rewriteAndRegister w f calls (echoLines f) td

/-! ## Sample worlds used by the concrete checks -/

/-- A task definition with the given container images and every other field
present. -/
def sampleTaskDefinition (images : List String) : TaskDefinition :=
  { ContainerDefinitions := images.map fun i => { Image := some i, others := "cfg" }
    ExecutionRoleArn := some "arn:exec"
    TaskRoleArn := some "arn:task"
    NetworkMode := some "awsvpc"
    Volumes := ["vol"]
    PlacementConstraints := []
    RequiresCompatibilities := ["FARGATE"]
    Cpu := some "256"
    Memory := some "512"
    Revision := some 7 }

/-- A world in which the fetched definition is `td`, registering gives
revision 8, and every call succeeds. -/
def happyWorld (td : TaskDefinition) : World :=
  { NewSession := fun _ => none
    DescribeTaskDefinition := fun _ => Except.ok { TaskDefinition := some td }
    RegisterTaskDefinition := fun _ =>
      Except.ok { TaskDefinition := some { td with Revision := some 8 } }
    UpdateService := fun _ => Except.ok { printed := "service updated" }
    WaitUntilServicesStable := fun _ => none
    Now := fun n => if n = 0 then "t0" else "t1" }

/-- A world like `happyWorld` in which `UpdateService` fails with the
cluster-not-found code. -/
def clusterGoneWorld (td : TaskDefinition) : World :=
  { happyWorld td with
    UpdateService := fun _ =>
      Except.error (GoError.awserr ErrCodeClusterNotFoundException "ClusterNotFoundException: Cluster not found.") }

/-- A world like `happyWorld` in which `session.NewSession` fails. -/
def noSessionWorld (td : TaskDefinition) : World :=
  { happyWorld td with
    NewSession := fun _ => some (GoError.other "failed to load shared config") }

/-- Flags with the given `-v` value and the other four present. -/
def sampleFlags (imageVersions : String) : Flags :=
  { clusterName := "cl", serviceName := "svc", taskFamily := "family",
    imageVersions := imageVersions, region := "us-west-2" }

/-! ## Reference definitions that follow the specification's wording -/

/-- The text of an entry with image path `p` and tag `t`. -/
def entryString (e : String × String) : String :=
  e.1 ++ ":" ++ e.2

/-- Reference: processing one entry "p:t" sets the image of every container
whose current image contains `p` as a substring to "p:t", and leaves every
other container and every other field as it is. -/
def referenceProcess (e : String × String) (defs : List ContainerDefinition) :
    List ContainerDefinition :=
  defs.map fun c =>
    match c.Image with
    | some image => if e.1.data <:+: image.data then { c with Image := some (entryString e) } else c
    | none => c

/-- Reference: the entries are processed in input order. -/
def referenceRewrite (es : List (String × String)) (defs : List ContainerDefinition) :
    List ContainerDefinition :=
  es.foldl (fun d e => referenceProcess e d) defs

/-! ## Vocabulary for statements about runs -/

/-- The effect of one entry on one container that has an image. -/
def rewriteOne (entry path : String) (c : ContainerDefinition) : ContainerDefinition :=
  match c.Image with
  | some image => if Contains image path then { c with Image := some entry } else c
  | none => c

/-- The image path of an entry as the rewrite loop takes it: the first piece
of the split on the colon. -/
def pathOf (entry : String) : String :=
  (Split entry ':').getD 0 ""

/-- All five flags were given. -/
def Flags.AllPresent (f : Flags) : Prop :=
  f.clusterName ≠ "" ∧ f.serviceName ≠ "" ∧ f.taskFamily ≠ "" ∧ f.imageVersions ≠ "" ∧
  f.region ≠ ""

/-- The `DescribeTaskDefinition` call of a run. -/
def describeCall (f : Flags) : Call :=
  Call.DescribeTaskDefinition { TaskDefinition := some f.taskFamily }

/-- The `UpdateService` call of a run that registered `revision`. -/
def updateCall (f : Flags) (revision : Int) : Call :=
  Call.UpdateService
    { Cluster := some f.clusterName
      Service := some f.serviceName
      TaskDefinition := some (f.taskFamily ++ ":" ++ FormatInt revision) }

/-- The `WaitUntilServicesStable` call of a run. -/
def waitCall (f : Flags) : Call :=
  Call.WaitUntilServicesStable
    { Cluster := some f.clusterName, Services := [some f.serviceName] }

/-- The output up to and including the "Started updating" line. -/
def linesToUpdate (w : World) (f : Flags) (revision : Int) : List String :=
  echoLines f ++ ["Task Definition registered: " ++ f.taskFamily ++ ":" ++ FormatInt revision] ++
    ["Started updating service(" ++ f.serviceName ++ "): " ++ w.Now 0]

/-! ## The paths through the program -/

/-- The paths through `main`: each constructor is one way a run can go, with
the conditions under which it is taken and the run it produces. -/
inductive Path (w : World) (f : Flags) : Run → Prop where
  | noCluster (h : f.clusterName = "") : Path w f ⟨[], [noClusterMsg], Exit.returned⟩
  | noService (hc : f.clusterName ≠ "") (h : f.serviceName = "") :
    Path w f ⟨[], [noServiceMsg], Exit.returned⟩
  | noFamily (hc : f.clusterName ≠ "") (hs : f.serviceName ≠ "") (h : f.taskFamily = "") :
    Path w f ⟨[], [noFamilyMsg], Exit.returned⟩
  | noVersion (hc : f.clusterName ≠ "") (hs : f.serviceName ≠ "") (ht : f.taskFamily ≠ "")
    (h : f.imageVersions = "") : Path w f ⟨[], [noVersionMsg], Exit.returned⟩
  | noRegion (hc : f.clusterName ≠ "") (hs : f.serviceName ≠ "") (ht : f.taskFamily ≠ "")
    (hv : f.imageVersions ≠ "") (h : f.region = "") :
    Path w f ⟨[], [noRegionMsg], Exit.returned⟩
  | nilSession (hf : f.AllPresent) (err : GoError)
    (hs : w.NewSession f.region = some err) :
    Path w f ⟨[], echoLines f, Exit.panicked⟩
  | describeError (hf : f.AllPresent) (hs : w.NewSession f.region = none) (err : GoError)
    (hd : w.DescribeTaskDefinition ⟨some f.taskFamily⟩ = Except.error err) :
    Path w f ⟨[describeCall f], echoLines f ++ [fetchErrorLine err], Exit.returned⟩
  | nilDefinition (hf : f.AllPresent) (hs : w.NewSession f.region = none)
    (out : DescribeTaskDefinitionOutput)
    (hd : w.DescribeTaskDefinition ⟨some f.taskFamily⟩ = Except.ok out)
    (hn : out.TaskDefinition = none) :
    Path w f ⟨[describeCall f], echoLines f, Exit.panicked⟩
  | badEntry (hf : f.AllPresent) (hs : w.NewSession f.region = none)
    (out : DescribeTaskDefinitionOutput) (td : TaskDefinition)
    (hd : w.DescribeTaskDefinition ⟨some f.taskFamily⟩ = Except.ok out)
    (htd : out.TaskDefinition = some td)
    (hrw : rewriteImages (Split f.imageVersions ',') td.ContainerDefinitions
      = Rewritten.badEntry) :
    Path w f ⟨[describeCall f], echoLines f ++ [badVersionMsg], Exit.returned⟩
  | nilImage (hf : f.AllPresent) (hs : w.NewSession f.region = none)
    (out : DescribeTaskDefinitionOutput) (td : TaskDefinition)
    (hd : w.DescribeTaskDefinition ⟨some f.taskFamily⟩ = Except.ok out)
    (htd : out.TaskDefinition = some td)
    (hrw : rewriteImages (Split f.imageVersions ',') td.ContainerDefinitions
      = Rewritten.nilImage) :
    Path w f ⟨[describeCall f], echoLines f, Exit.panicked⟩
  | nilField (hf : f.AllPresent) (hs : w.NewSession f.region = none)
    (out : DescribeTaskDefinitionOutput) (td : TaskDefinition)
    (defs : List ContainerDefinition)
    (hd : w.DescribeTaskDefinition ⟨some f.taskFamily⟩ = Except.ok out)
    (htd : out.TaskDefinition = some td)
    (hrw : rewriteImages (Split f.imageVersions ',') td.ContainerDefinitions
      = Rewritten.done defs)
    (hin : taskDefinitionInput f.taskFamily td defs = none) :
    Path w f ⟨[describeCall f], echoLines f, Exit.panicked⟩
  | registerError (hf : f.AllPresent) (hs : w.NewSession f.region = none)
    (out : DescribeTaskDefinitionOutput)
    (td : TaskDefinition) (defs : List ContainerDefinition)
    (input : RegisterTaskDefinitionInput) (err : GoError)
    (hd : w.DescribeTaskDefinition ⟨some f.taskFamily⟩ = Except.ok out)
    (htd : out.TaskDefinition = some td)
    (hrw : rewriteImages (Split f.imageVersions ',') td.ContainerDefinitions
      = Rewritten.done defs)
    (hin : taskDefinitionInput f.taskFamily td defs = some input)
    (hr : w.RegisterTaskDefinition input = Except.error err) :
    Path w f ⟨[describeCall f, Call.RegisterTaskDefinition input],
      echoLines f ++ [fetchErrorLine err], Exit.returned⟩
  | nilRevision (hf : f.AllPresent) (hs : w.NewSession f.region = none)
    (out : DescribeTaskDefinitionOutput)
    (td : TaskDefinition) (defs : List ContainerDefinition)
    (input : RegisterTaskDefinitionInput) (out2 : RegisterTaskDefinitionOutput)
    (hd : w.DescribeTaskDefinition ⟨some f.taskFamily⟩ = Except.ok out)
    (htd : out.TaskDefinition = some td)
    (hrw : rewriteImages (Split f.imageVersions ',') td.ContainerDefinitions
      = Rewritten.done defs)
    (hin : taskDefinitionInput f.taskFamily td defs = some input)
    (hr : w.RegisterTaskDefinition input = Except.ok out2)
    (hn : out2.TaskDefinition = none ∨
      ∃ newTd, out2.TaskDefinition = some newTd ∧ newTd.Revision = none) :
    Path w f ⟨[describeCall f, Call.RegisterTaskDefinition input], echoLines f,
      Exit.panicked⟩
  | updateError (hf : f.AllPresent) (hs : w.NewSession f.region = none)
    (out : DescribeTaskDefinitionOutput)
    (td : TaskDefinition) (defs : List ContainerDefinition)
    (input : RegisterTaskDefinitionInput) (out2 : RegisterTaskDefinitionOutput)
    (newTd : TaskDefinition) (revision : Int) (err : GoError)
    (hd : w.DescribeTaskDefinition ⟨some f.taskFamily⟩ = Except.ok out)
    (htd : out.TaskDefinition = some td)
    (hrw : rewriteImages (Split f.imageVersions ',') td.ContainerDefinitions
      = Rewritten.done defs)
    (hin : taskDefinitionInput f.taskFamily td defs = some input)
    (hr : w.RegisterTaskDefinition input = Except.ok out2)
    (hnew : out2.TaskDefinition = some newTd) (hrev : newTd.Revision = some revision)
    (hu : w.UpdateService ⟨some f.clusterName, some f.serviceName,
      some (f.taskFamily ++ ":" ++ FormatInt revision)⟩ = Except.error err) :
    Path w f ⟨[describeCall f, Call.RegisterTaskDefinition input, updateCall f revision],
      linesToUpdate w f revision ++ [updateErrorLine err], Exit.returned⟩
  | waitError (hf : f.AllPresent) (hs : w.NewSession f.region = none)
    (out : DescribeTaskDefinitionOutput)
    (td : TaskDefinition) (defs : List ContainerDefinition)
    (input : RegisterTaskDefinitionInput) (out2 : RegisterTaskDefinitionOutput)
    (newTd : TaskDefinition) (revision : Int) (result : UpdateServiceOutput)
    (err : GoError)
    (hd : w.DescribeTaskDefinition ⟨some f.taskFamily⟩ = Except.ok out)
    (htd : out.TaskDefinition = some td)
    (hrw : rewriteImages (Split f.imageVersions ',') td.ContainerDefinitions
      = Rewritten.done defs)
    (hin : taskDefinitionInput f.taskFamily td defs = some input)
    (hr : w.RegisterTaskDefinition input = Except.ok out2)
    (hnew : out2.TaskDefinition = some newTd) (hrev : newTd.Revision = some revision)
    (hu : w.UpdateService ⟨some f.clusterName, some f.serviceName,
      some (f.taskFamily ++ ":" ++ FormatInt revision)⟩ = Except.ok result)
    (hw : w.WaitUntilServicesStable ⟨some f.clusterName, [some f.serviceName]⟩ = some err) :
    Path w f ⟨[describeCall f, Call.RegisterTaskDefinition input, updateCall f revision,
        waitCall f],
      linesToUpdate w f revision ++ ["Update service result:", result.printed]
        ++ [Sprintln [err.text]], Exit.returned⟩
  | completed (hf : f.AllPresent) (hs : w.NewSession f.region = none)
    (out : DescribeTaskDefinitionOutput)
    (td : TaskDefinition) (defs : List ContainerDefinition)
    (input : RegisterTaskDefinitionInput) (out2 : RegisterTaskDefinitionOutput)
    (newTd : TaskDefinition) (revision : Int) (result : UpdateServiceOutput)
    (hd : w.DescribeTaskDefinition ⟨some f.taskFamily⟩ = Except.ok out)
    (htd : out.TaskDefinition = some td)
    (hrw : rewriteImages (Split f.imageVersions ',') td.ContainerDefinitions
      = Rewritten.done defs)
    (hin : taskDefinitionInput f.taskFamily td defs = some input)
    (hr : w.RegisterTaskDefinition input = Except.ok out2)
    (hnew : out2.TaskDefinition = some newTd) (hrev : newTd.Revision = some revision)
    (hu : w.UpdateService ⟨some f.clusterName, some f.serviceName,
      some (f.taskFamily ++ ":" ++ FormatInt revision)⟩ = Except.ok result)
    (hw : w.WaitUntilServicesStable ⟨some f.clusterName, [some f.serviceName]⟩ = none) :
    Path w f ⟨[describeCall f, Call.RegisterTaskDefinition input, updateCall f revision,
        waitCall f],
      linesToUpdate w f revision ++ ["Update service result:", result.printed]
        ++ ["Done: " ++ w.Now 1], Exit.completed⟩

instance (f : Flags) : Decidable f.AllPresent := by
  unfold Flags.AllPresent
  infer_instance

/-! ## The flags and their usage messages -/

/-- The five flags, in the order in which `main` checks them. -/
inductive FlagName where
  | c
  | s
  | t
  | v
  | r
  deriving DecidableEq, Repr

/-- Position of a flag in the order of the checks. -/
def FlagName.rank : FlagName → Nat
  | FlagName.c => 0
  | FlagName.s => 1
  | FlagName.t => 2
  | FlagName.v => 3
  | FlagName.r => 4

/-- The flag as written on the command line. -/
def FlagName.option : FlagName → String
  | FlagName.c => "-c"
  | FlagName.s => "-s"
  | FlagName.t => "-t"
  | FlagName.v => "-v"
  | FlagName.r => "-r"

/-- The value parsed for a flag. -/
def Flags.value (f : Flags) : FlagName → String
  | FlagName.c => f.clusterName
  | FlagName.s => f.serviceName
  | FlagName.t => f.taskFamily
  | FlagName.v => f.imageVersions
  | FlagName.r => f.region

/-- The message `main` prints when the flag is missing. -/
def usageMsg : FlagName → String
  | FlagName.c => noClusterMsg
  | FlagName.s => noServiceMsg
  | FlagName.t => noFamilyMsg
  | FlagName.v => noVersionMsg
  | FlagName.r => noRegionMsg

/-! ## Conditions on responses and runs -/

/-- Every pointer that `main` dereferences in the fetched definition is
present: the two role ARNs, the network mode, CPU, memory, and the image of
every container. -/
def WellPopulated (td : TaskDefinition) : Prop :=
  td.ExecutionRoleArn ≠ none ∧ td.TaskRoleArn ≠ none ∧ td.NetworkMode ≠ none ∧
  td.Cpu ≠ none ∧ td.Memory ≠ none ∧ ∀ c ∈ td.ContainerDefinitions, c.Image ≠ none

instance (td : TaskDefinition) : Decidable (WellPopulated td) := by
  unfold WellPopulated
  infer_instance

/-- The error, if any, with which the world answers a call. -/
def World.errorOf (w : World) : Call → Option GoError
  | Call.DescribeTaskDefinition input =>
    match w.DescribeTaskDefinition input with
    | Except.error err => some err
    | Except.ok _ => none
  | Call.RegisterTaskDefinition input =>
    match w.RegisterTaskDefinition input with
    | Except.error err => some err
    | Except.ok _ => none
  | Call.UpdateService input =>
    match w.UpdateService input with
    | Except.error err => some err
    | Except.ok _ => none
  | Call.WaitUntilServicesStable input => w.WaitUntilServicesStable input

/-- Reference: an entry splits on the colon into exactly two non-empty parts. -/
def twoNonEmptyParts (entry : String) : Bool :=
  match Split entry ':' with
  | [path, tag] => path ≠ "" && tag ≠ ""
  | _ => false

/-- The run was rejected for the form of `-v`: the message about the form of
the value was printed and `RegisterTaskDefinition` was not called. -/
def RejectedForVersion (r : Run) : Prop :=
  badVersionMsg ∈ r.stdout ∧ ∀ c ∈ r.calls, c.op ≠ Op.register

instance (r : Run) : Decidable (RejectedForVersion r) := by
  unfold RejectedForVersion
  infer_instance

/-! ## Lemmas -/

/-! ## Facts about the string functions -/

theorem splitChars_length (sep : Char) (cs : List Char) :
    (splitChars sep cs).length = cs.count sep + 1 := by
  induction cs with
  | nil => simp [splitChars]
  | cons c cs ih =>
    by_cases h : c = sep
    · subst h
      simp [splitChars, ih]
    · have hne : (c == sep) = false := by simpa using h
      cases hs : splitChars sep cs with
      | nil => simp [hs] at ih
      | cons p ps =>
        rw [hs] at ih
        simp [splitChars, h, hs, List.count_cons, hne] at ih ⊢
        omega

theorem splitChars_of_not_mem (sep : Char) (cs : List Char) (h : sep ∉ cs) :
    splitChars sep cs = [cs] := by
  induction cs with
  | nil => simp [splitChars]
  | cons c cs ih =>
    have hc : c ≠ sep := fun e => h (by simp [e])
    have hcs : sep ∉ cs := fun e => h (by simp [e])
    simp [splitChars, hc, ih hcs]

theorem splitChars_append_sep (sep : Char) (p t : List Char) (h : sep ∉ p) :
    splitChars sep (p ++ sep :: t) = p :: splitChars sep t := by
  induction p with
  | nil => simp [splitChars]
  | cons c cs ih =>
    have hc : c ≠ sep := fun e => h (by simp [e])
    have hcs : sep ∉ cs := fun e => h (by simp [e])
    simp [splitChars, hc, ih hcs]

theorem Split_length (s : String) (sep : Char) :
    (Split s sep).length = s.data.count sep + 1 := by
  simp [Split, splitChars_length]

theorem Split_entryString (e : String × String)
    (h1 : ':' ∉ e.1.data) (h2 : ':' ∉ e.2.data) :
    Split (entryString e) ':' = [e.1, e.2] := by
  have hd : (entryString e).data = e.1.data ++ ':' :: e.2.data := by
    simp [entryString, String.data_append]
  simp [Split, hd, splitChars_append_sep _ _ _ h1, splitChars_of_not_mem _ _ h2]

theorem containsChars_iff (s sub : List Char) :
    containsChars s sub = true ↔ sub <:+: s := by
  induction s with
  | nil => simp [containsChars, List.isEmpty_iff]
  | cons c cs ih =>
    simp [containsChars, List.infix_cons_iff, ih]

theorem Contains_iff (s sub : String) : Contains s sub = true ↔ sub.data <:+: s.data :=
  containsChars_iff _ _

/-! ## Facts about the rewrite loops -/

theorem rewriteContainers_eq_map (entry path : String) (defs : List ContainerDefinition)
    (himg : ∀ c ∈ defs, c.Image ≠ none) :
    rewriteContainers entry path defs = some (defs.map (rewriteOne entry path)) := by
  induction defs with
  | nil => rfl
  | cons c cs ih =>
    have hc : c.Image ≠ none := himg c (by simp)
    have hcs : ∀ d ∈ cs, d.Image ≠ none := fun d hd => himg d (by simp [hd])
    cases hi : c.Image with
    | none => exact absurd hi hc
    | some image => simp [rewriteContainers, rewriteOne, hi, ih hcs]

theorem rewriteOne_image_ne_none (entry path : String) (c : ContainerDefinition)
    (h : c.Image ≠ none) : (rewriteOne entry path c).Image ≠ none := by
  cases hi : c.Image with
  | none => exact absurd hi h
  | some image =>
    by_cases hc : Contains image path = true <;> simp [rewriteOne, hi, hc]

theorem rewriteOne_others (entry path : String) (c : ContainerDefinition) :
    (rewriteOne entry path c).others = c.others := by
  cases hi : c.Image with
  | none => simp [rewriteOne, hi]
  | some image =>
    by_cases hc : Contains image path = true <;> simp [rewriteOne, hi, hc]

theorem map_rewriteOne_images (entry path : String) (defs : List ContainerDefinition)
    (himg : ∀ c ∈ defs, c.Image ≠ none) :
    ∀ c ∈ defs.map (rewriteOne entry path), c.Image ≠ none := by
  intro c hc
  obtain ⟨d, hd, rfl⟩ := List.mem_map.mp hc
  exact rewriteOne_image_ne_none entry path d (himg d hd)

/-- One step of the outer loop on an entry that splits into two pieces, over
containers that all have an image. -/
theorem rewriteImages_cons_good (entry : String) (rest : List String)
    (defs : List ContainerDefinition) (hlen : (Split entry ':').length = 2)
    (himg : ∀ c ∈ defs, c.Image ≠ none) :
    rewriteImages (entry :: rest) defs
      = rewriteImages rest (defs.map (rewriteOne entry (pathOf entry))) := by
  simp [rewriteImages, hlen, pathOf, rewriteContainers_eq_map _ _ _ himg]

theorem rewriteImages_cons_bad (entry : String) (rest : List String)
    (defs : List ContainerDefinition) (hlen : (Split entry ':').length ≠ 2) :
    rewriteImages (entry :: rest) defs = Rewritten.badEntry := by
  simp [rewriteImages, hlen]

/-- A list of entries with one that does not split into two pieces never
comes out of the rewrite loop with a container list. -/
theorem rewriteImages_bad_not_done (es : List String) (defs : List ContainerDefinition)
    (hbad : ∃ e ∈ es, (Split e ':').length ≠ 2) :
    ∀ r, rewriteImages es defs ≠ Rewritten.done r := by
  induction es generalizing defs with
  | nil => simp at hbad
  | cons e rest ih =>
    intro r
    by_cases hlen : (Split e ':').length = 2
    · have hrest : ∃ x ∈ rest, (Split x ':').length ≠ 2 := by
        obtain ⟨x, hx, hxb⟩ := hbad
        rcases List.mem_cons.mp hx with rfl | hx
        · exact absurd hlen hxb
        · exact ⟨x, hx, hxb⟩
      rw [rewriteImages]
      simp only [hlen, ne_eq, not_true_eq_false, if_false]
      split
      · simp
      · exact ih _ hrest r
    · simp [rewriteImages, hlen]

/-- With every image present and every entry splitting into two pieces, the
rewrite loop ends with a container list in which every image is present. -/
theorem rewriteImages_done_of_good (es : List String) (defs : List ContainerDefinition)
    (himg : ∀ c ∈ defs, c.Image ≠ none) (hgood : ∀ e ∈ es, (Split e ':').length = 2) :
    ∃ r, rewriteImages es defs = Rewritten.done r ∧ (∀ c ∈ r, c.Image ≠ none) ∧
      r.map ContainerDefinition.others = defs.map ContainerDefinition.others := by
  induction es generalizing defs with
  | nil => exact ⟨defs, rfl, himg, rfl⟩
  | cons e rest ih =>
    have hlen : (Split e ':').length = 2 := hgood e (by simp)
    have hrest : ∀ x ∈ rest, (Split x ':').length = 2 := fun x hx => hgood x (by simp [hx])
    rw [rewriteImages_cons_good e rest defs hlen himg]
    obtain ⟨r, hr, hri, hro⟩ := ih _ (map_rewriteOne_images _ _ defs himg) hrest
    refine ⟨r, hr, hri, ?_⟩
    rw [hro, List.map_map]
    apply List.map_congr_left
    intro c _
    exact rewriteOne_others _ _ c

theorem Sprintln_pair_data (a b : String) :
    (Sprintln [a, b]).data = a.data ++ ' ' :: b.data := by
  simp [Sprintln, String.data_append]

theorem suffix_Sprintln_pair (a b : String) : b.data <:+ (Sprintln [a, b]).data := by
  rw [Sprintln_pair_data]
  exact (List.suffix_cons _ _).trans (List.suffix_append _ _)

theorem text_suffix_fetchErrorLine (err : GoError) :
    err.text.data <:+ (fetchErrorLine err).data := by
  cases err with
  | other text => simp [fetchErrorLine, GoError.text, Sprintln]
  | awserr code text =>
    unfold fetchErrorLine
    dsimp only [GoError.text]
    split_ifs
    all_goals first
      | exact List.suffix_refl _
      | exact suffix_Sprintln_pair _ _

theorem text_suffix_updateErrorLine (err : GoError) :
    err.text.data <:+ (updateErrorLine err).data := by
  cases err with
  | other text => simp [updateErrorLine, GoError.text, Sprintln]
  | awserr code text =>
    unfold updateErrorLine
    dsimp only [GoError.text]
    split_ifs
    all_goals first
      | exact List.suffix_refl _
      | exact suffix_Sprintln_pair _ _

theorem updateErrorLine_clusterNotFound (text : String) :
    updateErrorLine (GoError.awserr ErrCodeClusterNotFoundException text)
      = ErrCodeClusterNotFoundException ++ " " ++ text := by
  have h1 : ErrCodeClusterNotFoundException ≠ ErrCodeServerException := by decide
  have h2 : ErrCodeClusterNotFoundException ≠ ErrCodeClientException := by decide
  have h3 : ErrCodeClusterNotFoundException ≠ ErrCodeInvalidParameterException := by decide
  simp [updateErrorLine, h1, h2, h3, Sprintln]

theorem rewriteImages_ne_nilImage (es : List String) (defs : List ContainerDefinition)
    (himg : ∀ c ∈ defs, c.Image ≠ none) : rewriteImages es defs ≠ Rewritten.nilImage := by
  induction es generalizing defs with
  | nil => simp [rewriteImages]
  | cons e rest ih =>
    by_cases hlen : (Split e ':').length = 2
    · rw [rewriteImages_cons_good e rest defs hlen himg]
      exact ih _ (map_rewriteOne_images _ _ defs himg)
    · rw [rewriteImages_cons_bad e rest defs hlen]
      simp

theorem taskDefinitionInput_isSome (taskFamily : String) (td : TaskDefinition)
    (defs : List ContainerDefinition) (h : WellPopulated td) :
    ∃ input, taskDefinitionInput taskFamily td defs = some input := by
  obtain ⟨h1, h2, h3, h4, h5, _⟩ := h
  cases e1 : td.ExecutionRoleArn with
  | none => exact absurd e1 h1
  | some a1 =>
  cases e2 : td.TaskRoleArn with
  | none => exact absurd e2 h2
  | some a2 =>
  cases e3 : td.NetworkMode with
  | none => exact absurd e3 h3
  | some a3 =>
  cases e4 : td.Cpu with
  | none => exact absurd e4 h4
  | some a4 =>
  cases e5 : td.Memory with
  | none => exact absurd e5 h5
  | some a5 => simp [taskDefinitionInput, e1, e2, e3, e4, e5]

theorem updateAndWait_path (w : World) (f : Flags) (hf : f.AllPresent)
    (hs : w.NewSession f.region = none)
    (out : DescribeTaskDefinitionOutput)
    (td : TaskDefinition) (defs : List ContainerDefinition)
    (input : RegisterTaskDefinitionInput) (out2 : RegisterTaskDefinitionOutput)
    (newTd : TaskDefinition) (revision : Int)
    (hd : w.DescribeTaskDefinition ⟨some f.taskFamily⟩ = Except.ok out)
    (htd : out.TaskDefinition = some td)
    (hrw : rewriteImages (Split f.imageVersions ',') td.ContainerDefinitions
      = Rewritten.done defs)
    (hin : taskDefinitionInput f.taskFamily td defs = some input)
    (hr : w.RegisterTaskDefinition input = Except.ok out2)
    (hnew : out2.TaskDefinition = some newTd) (hrev : newTd.Revision = some revision) :
    Path w f (updateAndWait w f ([describeCall f] ++ [Call.RegisterTaskDefinition input])
      (echoLines f ++
        ["Task Definition registered: " ++ f.taskFamily ++ ":" ++ FormatInt revision])
      (FormatInt revision)) := by
  unfold updateAndWait
  dsimp only
  split
  · rename_i err hu
    exact Path.updateError hf hs out td defs input out2 newTd revision err hd htd hrw hin hr
      hnew hrev hu
  · rename_i result hu
    split
    · rename_i err hw
      exact Path.waitError hf hs out td defs input out2 newTd revision result err hd htd hrw
        hin hr hnew hrev hu hw
    · rename_i hw
      exact Path.completed hf hs out td defs input out2 newTd revision result hd htd hrw hin
        hr hnew hrev hu hw

theorem rewriteAndRegister_path (w : World) (f : Flags) (hf : f.AllPresent)
    (hs : w.NewSession f.region = none)
    (out : DescribeTaskDefinitionOutput) (td : TaskDefinition)
    (hd : w.DescribeTaskDefinition ⟨some f.taskFamily⟩ = Except.ok out)
    (htd : out.TaskDefinition = some td) :
    Path w f (rewriteAndRegister w f [describeCall f] (echoLines f) td) := by
  unfold rewriteAndRegister
  dsimp only
  split
  · rename_i hrw
    exact Path.badEntry hf hs out td hd htd hrw
  · rename_i hrw
    exact Path.nilImage hf hs out td hd htd hrw
  · rename_i defs hrw
    split
    · rename_i hin
      exact Path.nilField hf hs out td defs hd htd hrw hin
    · rename_i input hin
      split
      · rename_i err hr
        exact Path.registerError hf hs out td defs input err hd htd hrw hin hr
      · rename_i out2 hr
        split
        · rename_i hn
          exact Path.nilRevision hf hs out td defs input out2 hd htd hrw hin hr (Or.inl hn)
        · rename_i newTd hnew
          split
          · rename_i hn
            exact Path.nilRevision hf hs out td defs input out2 hd htd hrw hin hr
              (Or.inr ⟨newTd, hnew, hn⟩)
          · rename_i revision hrev
            exact updateAndWait_path w f hf hs out td defs input out2 newTd revision hd htd
              hrw hin hr hnew hrev

/-- Every run of `main` follows one of the paths. -/
theorem main_path (w : World) (f : Flags) : Path w f (main w f) := by
  unfold main
  by_cases hc : f.clusterName = ""
  · simp only [hc, if_true]
    exact Path.noCluster hc
  by_cases hs : f.serviceName = ""
  · simp only [hc, hs, if_true, if_false]
    exact Path.noService hc hs
  by_cases ht : f.taskFamily = ""
  · simp only [hc, hs, ht, if_true, if_false]
    exact Path.noFamily hc hs ht
  by_cases hv : f.imageVersions = ""
  · simp only [hc, hs, ht, hv, if_true, if_false]
    exact Path.noVersion hc hs ht hv
  by_cases hr : f.region = ""
  · simp only [hc, hs, ht, hv, hr, if_true, if_false]
    exact Path.noRegion hc hs ht hv hr
  have hf : f.AllPresent := ⟨hc, hs, ht, hv, hr⟩
  simp only [hc, hs, ht, hv, hr, if_false]
  split
  · rename_i err hsess
    exact Path.nilSession hf err hsess
  · rename_i hsess
    split
    · rename_i err hd
      exact Path.describeError hf hsess err hd
    · rename_i out hd
      split
      · rename_i hn
        exact Path.nilDefinition hf hsess out hd hn
      · rename_i td htd
        exact rewriteAndRegister_path w f hf hsess out td hd htd

theorem splitChars_two (sep : Char) (cs a b : List Char)
    (h : splitChars sep cs = [a, b]) : cs = a ++ sep :: b ∧ sep ∉ a ∧ sep ∉ b := by
  induction cs generalizing a with
  | nil => simp [splitChars] at h
  | cons c rest ih =>
    by_cases hc : c = sep
    · subst hc
      simp only [splitChars, if_true, List.cons.injEq] at h
      obtain ⟨ha, hb⟩ := h
      subst ha
      have hcount := splitChars_length c rest
      rw [hb] at hcount
      have hnot : c ∉ rest := by
        intro hmem
        have := List.count_pos_iff.mpr hmem
        simp at hcount
        omega
      have hrest := splitChars_of_not_mem c rest hnot
      rw [hb] at hrest
      cases hrest
      exact ⟨rfl, by simp, hnot⟩
    · simp only [splitChars, hc, if_false] at h
      cases hs : splitChars sep rest with
      | nil => simp [hs] at h
      | cons p ps =>
        rw [hs] at h
        simp only [List.cons.injEq] at h
        obtain ⟨ha, hps⟩ := h
        subst ha
        subst hps
        obtain ⟨h1, h2, h3⟩ := ih p hs
        refine ⟨by simp [h1], ?_, h3⟩
        intro hmem
        rcases List.mem_cons.mp hmem with h | h
        · exact hc h.symm
        · exact h2 h

/-- Every entry that splits on the colon into two pieces is "p:t" for a path
and a tag without colon. -/
theorem entry_of_two_parts (entry : String) (h : (Split entry ':').length = 2) :
    ∃ e : String × String, ':' ∉ e.1.data ∧ ':' ∉ e.2.data ∧ entry = entryString e := by
  unfold Split at h
  rw [List.length_map] at h
  match hs : splitChars ':' entry.data, h with
  | [a, b], _ =>
    obtain ⟨h1, h2, h3⟩ := splitChars_two ':' entry.data a b hs
    refine ⟨(String.mk a, String.mk b), h2, h3, ?_⟩
    apply String.ext
    simp [entryString, String.data_append, h1]

/-! ## The claims -/

theorem pathOf_entryString (e : String × String)
    (h1 : ':' ∉ e.1.data) (h2 : ':' ∉ e.2.data) : pathOf (entryString e) = e.1 := by
  simp [pathOf, Split_entryString e h1 h2]

theorem map_rewriteOne_eq_referenceProcess (e : String × String)
    (defs : List ContainerDefinition) :
    defs.map (rewriteOne (entryString e) e.1) = referenceProcess e defs := by
  unfold referenceProcess
  apply List.map_congr_left
  intro c _
  cases hi : c.Image with
  | none => simp [rewriteOne, hi]
  | some image =>
    by_cases hc : e.1.data <:+: image.data
    · simp [rewriteOne, hi, hc, (Contains_iff image e.1).mpr hc]
    · have hn : ¬ (Contains image e.1 = true) := fun h => hc ((Contains_iff image e.1).mp h)
      simp [rewriteOne, hi, hc, hn]

theorem referenceProcess_others (e : String × String) (defs : List ContainerDefinition) :
    (referenceProcess e defs).map ContainerDefinition.others
      = defs.map ContainerDefinition.others := by
  rw [← map_rewriteOne_eq_referenceProcess, List.map_map]
  apply List.map_congr_left
  intro c _
  exact rewriteOne_others _ _ c

theorem referenceRewrite_others (es : List (String × String))
    (defs : List ContainerDefinition) :
    (referenceRewrite es defs).map ContainerDefinition.others
      = defs.map ContainerDefinition.others := by
  induction es generalizing defs with
  | nil => rfl
  | cons e rest ih =>
    have h := ih (referenceProcess e defs)
    rw [referenceProcess_others] at h
    exact h

/-- C1 (amended): over containers that all have an image, the rewrite loop on
well-formed entries "p:t" returns exactly the reference rewrite: the entries
processed in input order, each setting to "p:t" the image of every container
whose current image contains p; the number and order of the containers and
their other fields are those of the fetched list. -/
theorem rewriteImages_refines_reference (es : List (String × String))
    (defs : List ContainerDefinition)
    (hwf : ∀ e ∈ es, ':' ∉ e.1.data ∧ ':' ∉ e.2.data)
    (himg : ∀ c ∈ defs, c.Image ≠ none) :
    rewriteImages (es.map entryString) defs = Rewritten.done (referenceRewrite es defs) ∧
    (referenceRewrite es defs).length = defs.length ∧
    (referenceRewrite es defs).map ContainerDefinition.others
      = defs.map ContainerDefinition.others := by
  refine ⟨?_, ?_, referenceRewrite_others es defs⟩
  · induction es generalizing defs with
    | nil => rfl
    | cons e rest ih =>
      have he := hwf e (by simp)
      have hrest : ∀ x ∈ rest, ':' ∉ x.1.data ∧ ':' ∉ x.2.data :=
        fun x hx => hwf x (by simp [hx])
      have hlen : (Split (entryString e) ':').length = 2 := by
        rw [Split_entryString e he.1 he.2]
        rfl
      rw [List.map_cons, rewriteImages_cons_good _ _ defs hlen himg,
        pathOf_entryString e he.1 he.2]
      rw [ih _ hrest (map_rewriteOne_images _ _ defs himg),
        map_rewriteOne_eq_referenceProcess]
      rfl
  · have h := congrArg List.length (referenceRewrite_others es defs)
    simpa using h

/-- The claim's example, obtained from the theorem: images "repo/a:1.0" and
"repo/b:1.0" with the entry "repo/a:2.0" give "repo/a:2.0" and "repo/b:1.0". -/
theorem rewriteImages_refines_reference_witness :
    rewriteImages ["repo/a:2.0"]
        [⟨some "repo/a:1.0", "x"⟩, ⟨some "repo/b:1.0", "y"⟩]
      = Rewritten.done [⟨some "repo/a:2.0", "x"⟩, ⟨some "repo/b:1.0", "y"⟩] := by
  have h := (rewriteImages_refines_reference [("repo/a", "2.0")]
    [⟨some "repo/a:1.0", "x"⟩, ⟨some "repo/b:1.0", "y"⟩] (by decide) (by decide)).1
  have hr : referenceRewrite [("repo/a", "2.0")]
      [⟨some "repo/a:1.0", "x"⟩, ⟨some "repo/b:1.0", "y"⟩]
      = [⟨some "repo/a:2.0", "x"⟩, ⟨some "repo/b:1.0", "y"⟩] := by decide
  rw [hr] at h
  exact h

/-- C1 (as stated) fails on a container list with a container that has no
image: the reference rewrite leaves that container as it is, the loop
dereferences the nil image and the run faults. -/
theorem rewriteImages_faults_on_nil_image :
    rewriteImages [entryString ("repo/a", "2.0")] [⟨none, "x"⟩] = Rewritten.nilImage ∧
    referenceRewrite [("repo/a", "2.0")] [⟨none, "x"⟩] = [⟨none, "x"⟩] ∧
    rewriteImages [entryString ("repo/a", "2.0")] [⟨none, "x"⟩]
      ≠ Rewritten.done (referenceRewrite [("repo/a", "2.0")] [⟨none, "x"⟩]) := by
  decide

/-- C2 (amended): for two entries that each split into two pieces, over
containers that all have an image, a container whose fetched image contains
the path of the first entry ends with the second entry as its image when the
first entry itself contains the path of the second, and with the first entry
otherwise. -/
theorem second_entry_wins_iff_first_contains_its_path (e1 e2 : String)
    (defs : List ContainerDefinition) (i : Nat) (c : ContainerDefinition) (image : String)
    (h1 : (Split e1 ':').length = 2) (h2 : (Split e2 ':').length = 2)
    (himg : ∀ d ∈ defs, d.Image ≠ none)
    (hc : defs[i]? = some c) (hci : c.Image = some image)
    (hm : Contains image (pathOf e1) = true) :
    ∃ r, rewriteImages [e1, e2] defs = Rewritten.done r ∧
      r[i]? = some { c with Image := some (if Contains e1 (pathOf e2) = true then e2 else e1) } := by
  refine ⟨(defs.map (rewriteOne e1 (pathOf e1))).map (rewriteOne e2 (pathOf e2)), ?_, ?_⟩
  · rw [rewriteImages_cons_good e1 [e2] defs h1 himg,
      rewriteImages_cons_good e2 [] _ h2 (map_rewriteOne_images _ _ defs himg)]
    rfl
  · by_cases h : Contains e1 (pathOf e2) = true <;>
      simp [List.getElem?_map, hc, rewriteOne, hci, hm, h]

/-- The claim's example, obtained from the theorem: "repo/a:2.0,repo/a:3.0"
on a container with image "repo/a:1.0" ends with "repo/a:3.0". -/
theorem second_entry_wins_iff_first_contains_its_path_witness :
    ∃ r, rewriteImages (Split "repo/a:2.0,repo/a:3.0" ',') [⟨some "repo/a:1.0", "x"⟩]
        = Rewritten.done r ∧
      r[0]? = some ⟨some "repo/a:3.0", "x"⟩ :=
  second_entry_wins_iff_first_contains_its_path "repo/a:2.0" "repo/a:3.0"
    [⟨some "repo/a:1.0", "x"⟩] 0 ⟨some "repo/a:1.0", "x"⟩ "repo/a:1.0"
    (by decide) (by decide) (by decide) (by decide) rfl (by decide)

/-- C2 (as stated) fails: the fetched image "repo/ab:1.0" contains the paths
of both entries of "repo/a:2.0,ab:3.0", but the first entry replaces it by
"repo/a:2.0", which no longer contains "ab", so the container ends with the
first entry and not the second. -/
theorem later_entry_loses_after_first_rewrite :
    Split "repo/a:2.0,ab:3.0" ',' = ["repo/a:2.0", "ab:3.0"] ∧
    (Split "repo/a:2.0" ':').length = 2 ∧ (Split "ab:3.0" ':').length = 2 ∧
    Contains "repo/ab:1.0" (pathOf "repo/a:2.0") = true ∧
    Contains "repo/ab:1.0" (pathOf "ab:3.0") = true ∧
    rewriteImages (Split "repo/a:2.0,ab:3.0" ',') [⟨some "repo/ab:1.0", "x"⟩]
      = Rewritten.done [⟨some "repo/a:2.0", "x"⟩] := by
  decide

theorem AllPresent_value (f : Flags) (hf : f.AllPresent) (k : FlagName) : f.value k ≠ "" := by
  obtain ⟨h1, h2, h3, h4, h5⟩ := hf
  cases k <;> simpa [Flags.value]

/-- C5: when a flag is empty the run makes no remote call and prints exactly
one line, the usage message of the first empty flag in the order -c, -s, -t,
-v, -r; each usage message names its flag, and the five messages are
pairwise distinct. -/
theorem missing_flag_usage (w : World) (f : Flags) (k : FlagName) (hk : f.value k = "") :
    (main w f).calls = [] ∧ (main w f).exit = Exit.returned ∧
    (∃ j, j.rank ≤ k.rank ∧ f.value j = "" ∧ (∀ i, i.rank < j.rank → f.value i ≠ "") ∧
      (main w f).stdout = [usageMsg j]) ∧
    (∀ j, Contains (usageMsg j) ("option: " ++ j.option) = true) ∧
    (∀ i j, usageMsg i = usageMsg j → i = j) := by
  have hp := main_path w f
  generalize main w f = r at hp ⊢
  refine ⟨?_, ?_, ?_, ?_, ?_⟩
  · cases hp
    all_goals first
      | rfl
      | exact absurd hk (AllPresent_value f ‹f.AllPresent› k)
  · cases hp
    all_goals first
      | rfl
      | exact absurd hk (AllPresent_value f ‹f.AllPresent› k)
  · cases hp with
    | noCluster h =>
      refine ⟨FlagName.c, ?_, h, ?_, rfl⟩
      · cases k <;> simp [FlagName.rank]
      · intro i hi
        cases i <;> simp [FlagName.rank] at hi
    | noService hc h =>
      refine ⟨FlagName.s, ?_, h, ?_, rfl⟩
      · cases k <;> simp_all [FlagName.rank, Flags.value]
      · intro i hi
        cases i <;> simp_all [FlagName.rank, Flags.value]
    | noFamily hc hs h =>
      refine ⟨FlagName.t, ?_, h, ?_, rfl⟩
      · cases k <;> simp_all [FlagName.rank, Flags.value]
      · intro i hi
        cases i <;> simp_all [FlagName.rank, Flags.value]
    | noVersion hc hs ht h =>
      refine ⟨FlagName.v, ?_, h, ?_, rfl⟩
      · cases k <;> simp_all [FlagName.rank, Flags.value]
      · intro i hi
        cases i <;> simp_all [FlagName.rank, Flags.value]
    | noRegion hc hs ht hv h =>
      refine ⟨FlagName.r, ?_, h, ?_, rfl⟩
      · cases k <;> simp_all [FlagName.rank, Flags.value]
      · intro i hi
        cases i <;> simp_all [FlagName.rank, Flags.value]
    | _ => exact absurd hk (AllPresent_value f ‹f.AllPresent› k)
  · intro j
    cases j <;> decide
  · intro i j
    cases i <;> cases j <;> decide

/-- A run with -s and -v both missing and -c present prints the -s message. -/
theorem missing_flag_usage_witness :
    (main (happyWorld (sampleTaskDefinition []))
        ⟨"cl", "", "family", "", "us-west-2"⟩).calls = [] ∧
    (main (happyWorld (sampleTaskDefinition []))
        ⟨"cl", "", "family", "", "us-west-2"⟩).stdout = [noServiceMsg] := by
  have h := missing_flag_usage (happyWorld (sampleTaskDefinition []))
    ⟨"cl", "", "family", "", "us-west-2"⟩ FlagName.v rfl
  exact ⟨h.1, by decide⟩

theorem head_Sprintln_pair (a b : String) (c : Char) (rest : List Char)
    (ha : a.data = c :: rest) : (Sprintln [a, b]).data.head? = some c := by
  rw [Sprintln_pair_data, ha]
  rfl

theorem badVersionMsg_not_echoed (f : Flags) : badVersionMsg ∉ echoLines f := by
  intro h
  simp only [echoLines, List.mem_cons, List.mem_singleton, List.not_mem_nil, or_false] at h
  have hb : badVersionMsg.data.head? = some 'e' := rfl
  rcases h with h | h | h | h | h
  all_goals
    rw [h, head_Sprintln_pair _ _ _ _ rfl] at hb
    revert hb
    decide

theorem bad_count_iff (e : String) : e.data.count ':' ≠ 1 ↔ (Split e ':').length ≠ 2 := by
  rw [Split_length]
  omega

/-- C3 (amended): a run with all five flags present whose -v list has an
entry without exactly one colon calls none of register, update and wait; the
only remote call it can make is the describe-task-definition call for the
family, which it makes, once, whenever the client session is built. -/
theorem bad_entry_calls_only_describe (w : World) (f : Flags) (hf : f.AllPresent)
    (hbad : ∃ e ∈ Split f.imageVersions ',', e.data.count ':' ≠ 1) :
    ((main w f).calls = [] ∨
      (main w f).calls = [Call.DescribeTaskDefinition ⟨some f.taskFamily⟩]) ∧
    (w.NewSession f.region = none →
      (main w f).calls = [Call.DescribeTaskDefinition ⟨some f.taskFamily⟩]) ∧
    ∀ c ∈ (main w f).calls,
      c.op ≠ Op.register ∧ c.op ≠ Op.update ∧ c.op ≠ Op.wait := by
  have hbad2 : ∃ e ∈ Split f.imageVersions ',', (Split e ':').length ≠ 2 := by
    obtain ⟨e, he, hc⟩ := hbad
    exact ⟨e, he, (bad_count_iff e).mp hc⟩
  have hp := main_path w f
  generalize main w f = r at hp ⊢
  have hcalls : (r.calls = [] ∧ w.NewSession f.region ≠ none) ∨
      r.calls = [Call.DescribeTaskDefinition ⟨some f.taskFamily⟩] := by
    cases hp with
    | noCluster h => exact absurd h hf.1
    | noService _ h => exact absurd h hf.2.1
    | noFamily _ _ h => exact absurd h hf.2.2.1
    | noVersion _ _ _ h => exact absurd h hf.2.2.2.1
    | noRegion _ _ _ _ h => exact absurd h hf.2.2.2.2
    | nilSession _ err hs => exact Or.inl ⟨rfl, by simp [hs]⟩
    | describeError => exact Or.inr rfl
    | nilDefinition => exact Or.inr rfl
    | badEntry => exact Or.inr rfl
    | nilImage => exact Or.inr rfl
    | nilField _ _ _ td defs _ _ hrw =>
      exact absurd hrw (rewriteImages_bad_not_done _ _ hbad2 defs)
    | registerError _ _ _ td defs _ _ _ _ hrw =>
      exact absurd hrw (rewriteImages_bad_not_done _ _ hbad2 defs)
    | nilRevision _ _ _ td defs _ _ _ _ hrw =>
      exact absurd hrw (rewriteImages_bad_not_done _ _ hbad2 defs)
    | updateError _ _ _ td defs _ _ _ _ _ _ _ hrw =>
      exact absurd hrw (rewriteImages_bad_not_done _ _ hbad2 defs)
    | waitError _ _ _ td defs _ _ _ _ _ _ _ _ hrw =>
      exact absurd hrw (rewriteImages_bad_not_done _ _ hbad2 defs)
    | completed _ _ _ td defs _ _ _ _ _ _ _ hrw =>
      exact absurd hrw (rewriteImages_bad_not_done _ _ hbad2 defs)
  refine ⟨?_, ?_, ?_⟩
  · rcases hcalls with h | h
    · exact Or.inl h.1
    · exact Or.inr h
  · intro hs
    rcases hcalls with h | h
    · exact absurd hs h.2
    · exact h
  · intro c hc
    rcases hcalls with h | h
    · rw [h.1] at hc
      simp at hc
    · rw [h, List.mem_singleton] at hc
      subst hc
      simp [Call.op]

/-- The theorem at the entry "repo/a:1:2" (two colons), with the session
built: only the describe call is made. -/
theorem bad_entry_calls_only_describe_witness :
    (sampleFlags "repo/b:3.0,repo/a:1:2").AllPresent ∧
    (main (happyWorld (sampleTaskDefinition ["repo/b:1.0"]))
        (sampleFlags "repo/b:3.0,repo/a:1:2")).calls
      = [Call.DescribeTaskDefinition ⟨some "family"⟩] :=
  ⟨by decide,
    (bad_entry_calls_only_describe (happyWorld (sampleTaskDefinition ["repo/b:1.0"]))
      (sampleFlags "repo/b:3.0,repo/a:1:2") (by decide) (by decide)).2.1 rfl⟩

/-- C3 (as stated) fails: with all five flags present and the entry "repo/a"
(no colon), the describe-task-definition call is made before the entry is
looked at. -/
theorem bad_entry_still_calls_describe :
    (sampleFlags "repo/a").AllPresent ∧
    (∃ e ∈ Split (sampleFlags "repo/a").imageVersions ',', e.data.count ':' ≠ 1) ∧
    Call.DescribeTaskDefinition ⟨some "family"⟩ ∈
      (main (happyWorld (sampleTaskDefinition ["repo/a:1.0"])) (sampleFlags "repo/a")).calls ∧
    (main (happyWorld (sampleTaskDefinition ["repo/a:1.0"])) (sampleFlags "repo/a")).stdout.getLast?
      = some badVersionMsg := by
  decide

/-- C9: when some entry of the -v list does not split on the colon into
exactly two parts, wherever it stands in the list, no call of
register-task-definition, update-service or wait-until-services-stable is
made. -/
theorem bad_entry_blocks_mutating_calls (w : World) (f : Flags)
    (hbad : ∃ e ∈ Split f.imageVersions ',', (Split e ':').length ≠ 2) :
    ∀ c ∈ (main w f).calls, c.op ≠ Op.register ∧ c.op ≠ Op.update ∧ c.op ≠ Op.wait := by
  have hp := main_path w f
  generalize main w f = r at hp ⊢
  have hcalls : r.calls = [] ∨ r.calls = [describeCall f] := by
    cases hp with
    | noCluster => exact Or.inl rfl
    | noService => exact Or.inl rfl
    | noFamily => exact Or.inl rfl
    | noVersion => exact Or.inl rfl
    | noRegion => exact Or.inl rfl
    | nilSession => exact Or.inl rfl
    | describeError => exact Or.inr rfl
    | nilDefinition => exact Or.inr rfl
    | badEntry => exact Or.inr rfl
    | nilImage => exact Or.inr rfl
    | nilField _ _ _ td defs _ _ hrw => exact absurd hrw (rewriteImages_bad_not_done _ _ hbad defs)
    | registerError _ _ _ td defs _ _ _ _ hrw =>
      exact absurd hrw (rewriteImages_bad_not_done _ _ hbad defs)
    | nilRevision _ _ _ td defs _ _ _ _ hrw =>
      exact absurd hrw (rewriteImages_bad_not_done _ _ hbad defs)
    | updateError _ _ _ td defs _ _ _ _ _ _ _ hrw =>
      exact absurd hrw (rewriteImages_bad_not_done _ _ hbad defs)
    | waitError _ _ _ td defs _ _ _ _ _ _ _ _ hrw =>
      exact absurd hrw (rewriteImages_bad_not_done _ _ hbad defs)
    | completed _ _ _ td defs _ _ _ _ _ _ _ hrw =>
      exact absurd hrw (rewriteImages_bad_not_done _ _ hbad defs)
  intro c hc
  rcases hcalls with h | h
  · rw [h] at hc
    simp at hc
  · rw [h, List.mem_singleton] at hc
    subst hc
    simp [describeCall, Call.op]

/-- The bad entry "repo/b" comes second, after "repo/a:2.0" has already
rewritten the container in memory: nothing but the describe call is made. -/
theorem bad_entry_blocks_mutating_calls_witness :
    rewriteImages ["repo/a:2.0"] (sampleTaskDefinition ["repo/a:1.0"]).ContainerDefinitions
      = Rewritten.done [⟨some "repo/a:2.0", "cfg"⟩] ∧
    ∀ c ∈ (main (happyWorld (sampleTaskDefinition ["repo/a:1.0"]))
        (sampleFlags "repo/a:2.0,repo/b")).calls,
      c.op ≠ Op.register ∧ c.op ≠ Op.update ∧ c.op ≠ Op.wait :=
  ⟨by decide,
    bad_entry_blocks_mutating_calls (happyWorld (sampleTaskDefinition ["repo/a:1.0"]))
      (sampleFlags "repo/a:2.0,repo/b") (by decide)⟩

/-- C4 (amended): in a run with all five flags present in which the client
session is built and the describe call returns a definition in which every
container has an image, the message about
the form of -v is printed and nothing is registered if and only if some
comma-separated entry does not split on the colon into exactly two parts;
the parts may be empty. -/
theorem rejected_iff_entry_not_two_parts (w : World) (f : Flags) (td : TaskDefinition)
    (hf : f.AllPresent) (hsess : w.NewSession f.region = none)
    (hd : w.DescribeTaskDefinition ⟨some f.taskFamily⟩ = Except.ok ⟨some td⟩)
    (himg : ∀ c ∈ td.ContainerDefinitions, c.Image ≠ none) :
    RejectedForVersion (main w f) ↔
      ∃ e ∈ Split f.imageVersions ',', (Split e ':').length ≠ 2 := by
  have hp := main_path w f
  generalize main w f = r at hp ⊢
  have hdone : ∀ defs0 defs,
      rewriteImages (Split f.imageVersions ',') defs0 = Rewritten.done defs →
      ¬ ∃ e ∈ Split f.imageVersions ',', (Split e ':').length ≠ 2 :=
    fun defs0 defs hrw hbad => rewriteImages_bad_not_done _ defs0 hbad defs hrw
  cases hp with
  | noCluster h => exact absurd h hf.1
  | noService _ h => exact absurd h hf.2.1
  | noFamily _ _ h => exact absurd h hf.2.2.1
  | noVersion _ _ _ h => exact absurd h hf.2.2.2.1
  | noRegion _ _ _ _ h => exact absurd h hf.2.2.2.2
  | nilSession _ err hs => rw [hsess] at hs; cases hs
  | describeError _ _ err hd2 => rw [hd] at hd2; cases hd2
  | nilDefinition _ _ out hd2 hn => rw [hd] at hd2; cases hd2; cases hn
  | badEntry _ _ out td2 hd2 htd hrw =>
    rw [hd] at hd2
    cases hd2
    cases htd
    constructor
    · intro _
      by_contra hgood
      have hgood2 : ∀ e ∈ Split f.imageVersions ',', (Split e ':').length = 2 := by
        intro e he
        by_contra hne
        exact hgood ⟨e, he, hne⟩
      obtain ⟨r, hr, _⟩ := rewriteImages_done_of_good _ _ himg hgood2
      rw [hrw] at hr
      cases hr
    · intro _
      refine ⟨by simp, ?_⟩
      intro c hc
      rw [List.mem_singleton] at hc
      subst hc
      simp [describeCall, Call.op]
  | nilImage _ _ out td2 hd2 htd hrw =>
    rw [hd] at hd2
    cases hd2
    cases htd
    exact absurd hrw (rewriteImages_ne_nilImage _ _ himg)
  | nilField _ _ out td2 defs hd2 htd hrw =>
    rw [hd] at hd2
    cases hd2
    constructor
    · intro h
      exact absurd h.1 (badVersionMsg_not_echoed f)
    · intro h
      exact absurd h (hdone _ defs hrw)
  | registerError _ _ out td2 defs input err hd2 htd hrw =>
    rw [hd] at hd2
    cases hd2
    constructor
    · intro h
      exact absurd rfl (h.2 (Call.RegisterTaskDefinition input) (by simp))
    · intro h
      exact absurd h (hdone _ defs hrw)
  | nilRevision _ _ out td2 defs input out2 hd2 htd hrw =>
    rw [hd] at hd2
    cases hd2
    constructor
    · intro h
      exact absurd rfl (h.2 (Call.RegisterTaskDefinition input) (by simp))
    · intro h
      exact absurd h (hdone _ defs hrw)
  | updateError _ _ out td2 defs input out2 newTd revision err hd2 htd hrw =>
    rw [hd] at hd2
    cases hd2
    constructor
    · intro h
      exact absurd rfl (h.2 (Call.RegisterTaskDefinition input) (by simp))
    · intro h
      exact absurd h (hdone _ defs hrw)
  | waitError _ _ out td2 defs input out2 newTd revision result err hd2 htd hrw =>
    rw [hd] at hd2
    cases hd2
    constructor
    · intro h
      exact absurd rfl (h.2 (Call.RegisterTaskDefinition input) (by simp))
    · intro h
      exact absurd h (hdone _ defs hrw)
  | completed _ _ out td2 defs input out2 newTd revision result hd2 htd hrw =>
    rw [hd] at hd2
    cases hd2
    constructor
    · intro h
      exact absurd rfl (h.2 (Call.RegisterTaskDefinition input) (by simp))
    · intro h
      exact absurd h (hdone _ defs hrw)

/-- The theorem at -v "repo/a:": the entry has an empty tag and splits into
two parts, so the run is not rejected. -/
theorem rejected_iff_entry_not_two_parts_witness :
    ¬ RejectedForVersion
      (main (happyWorld (sampleTaskDefinition ["repo/a:1.0"])) (sampleFlags "repo/a:")) := by
  rw [rejected_iff_entry_not_two_parts (happyWorld (sampleTaskDefinition ["repo/a:1.0"]))
    (sampleFlags "repo/a:") (sampleTaskDefinition ["repo/a:1.0"]) (by decide) rfl rfl
    (by decide)]
  decide

/-- C4 (as stated) fails: the entry ":2.0" has an empty path, so it does not
split into two non-empty parts, yet the run is not rejected: it registers a
definition in which the image of the container is ":2.0". It also fails the
other way round when the session is not built: the entry "repo/a" does not
split into two parts, and the run faults before it prints the message. -/
theorem empty_path_entry_not_rejected :
    (∃ e ∈ Split (sampleFlags "repo/a").imageVersions ',', twoNonEmptyParts e = false) ∧
    ¬ RejectedForVersion
      (main (noSessionWorld (sampleTaskDefinition ["repo/a:1.0"])) (sampleFlags "repo/a")) ∧
    (∃ e ∈ Split (sampleFlags ":2.0").imageVersions ',', twoNonEmptyParts e = false) ∧
    ¬ RejectedForVersion
      (main (happyWorld (sampleTaskDefinition ["repo/a:1.0"])) (sampleFlags ":2.0")) ∧
    (main (happyWorld (sampleTaskDefinition ["repo/a:1.0"])) (sampleFlags ":2.0")).calls.map
        Call.op = [Op.describe, Op.register, Op.update, Op.wait] ∧
    rewriteImages (Split ":2.0" ',') (sampleTaskDefinition ["repo/a:1.0"]).ContainerDefinitions
      = Rewritten.done [⟨some ":2.0", "cfg"⟩] := by
  decide

theorem taskDefinitionInput_eq (taskFamily : String) (td : TaskDefinition)
    (defs : List ContainerDefinition) (input : RegisterTaskDefinitionInput)
    (h : taskDefinitionInput taskFamily td defs = some input) :
    input =
      { ContainerDefinitions := defs
        Family := some taskFamily
        ExecutionRoleArn := td.ExecutionRoleArn
        TaskRoleArn := td.TaskRoleArn
        NetworkMode := td.NetworkMode
        Volumes := td.Volumes
        PlacementConstraints := td.PlacementConstraints
        RequiresCompatibilities := td.RequiresCompatibilities
        Cpu := td.Cpu
        Memory := td.Memory } ∧ WellPopulated { td with ContainerDefinitions := [] } := by
  unfold taskDefinitionInput at h
  split at h
  · rename_i a1 a2 a3 a4 a5 e1 e2 e3 e4 e5
    cases h
    simp [WellPopulated, e1, e2, e3, e4, e5]
  · cases h

/-- C6 (amended): in a run with all five flags present and every entry of
the -v list splitting into two parts, in which the client session is built,
every remote call made succeeds, the fetched definition is well populated and the register response
carries a revision number, the remote calls are describe, register, update,
wait, in that order, once each, and the run reaches its end. -/
theorem calls_in_fixed_order (w : World) (f : Flags) (hf : f.AllPresent)
    (hsess : w.NewSession f.region = none)
    (hgood : ∀ e ∈ Split f.imageVersions ',', (Split e ':').length = 2)
    (hok : ∀ c ∈ (main w f).calls, w.errorOf c = none)
    (hpop : ∀ out, w.DescribeTaskDefinition ⟨some f.taskFamily⟩ = Except.ok out →
      ∃ td, out.TaskDefinition = some td ∧ WellPopulated td)
    (hrev : ∀ input out, w.RegisterTaskDefinition input = Except.ok out →
      ∃ newTd revision, out.TaskDefinition = some newTd ∧ newTd.Revision = some revision) :
    (main w f).calls.map Call.op = [Op.describe, Op.register, Op.update, Op.wait] ∧
    (main w f).exit = Exit.completed := by
  have hp := main_path w f
  revert hok
  generalize main w f = r at hp ⊢
  intro hok
  cases hp with
  | noCluster h => exact absurd h hf.1
  | noService _ h => exact absurd h hf.2.1
  | noFamily _ _ h => exact absurd h hf.2.2.1
  | noVersion _ _ _ h => exact absurd h hf.2.2.2.1
  | noRegion _ _ _ _ h => exact absurd h hf.2.2.2.2
  | nilSession _ err hs => rw [hsess] at hs; cases hs
  | describeError _ _ err hd =>
    have h := hok (describeCall f) (by simp)
    simp [World.errorOf, describeCall, hd] at h
  | nilDefinition _ _ out hd hn =>
    obtain ⟨td, htd, _⟩ := hpop out hd
    rw [hn] at htd
    cases htd
  | badEntry _ _ out td hd htd hrw =>
    obtain ⟨td2, htd2, hwp⟩ := hpop out hd
    rw [htd] at htd2
    cases htd2
    obtain ⟨r, hr, _⟩ := rewriteImages_done_of_good _ _ hwp.2.2.2.2.2 hgood
    rw [hrw] at hr
    cases hr
  | nilImage _ _ out td hd htd hrw =>
    obtain ⟨td2, htd2, hwp⟩ := hpop out hd
    rw [htd] at htd2
    cases htd2
    exact absurd hrw (rewriteImages_ne_nilImage _ _ hwp.2.2.2.2.2)
  | nilField _ _ out td defs hd htd hrw hin =>
    obtain ⟨td2, htd2, hwp⟩ := hpop out hd
    rw [htd] at htd2
    cases htd2
    obtain ⟨input, hin2⟩ := taskDefinitionInput_isSome f.taskFamily td defs hwp
    rw [hin] at hin2
    cases hin2
  | registerError _ _ out td defs input err hd htd hrw hin hr =>
    have h := hok (Call.RegisterTaskDefinition input) (by simp)
    simp [World.errorOf, hr] at h
  | nilRevision _ _ out td defs input out2 hd htd hrw hin hr hn =>
    obtain ⟨newTd, revision, h1, h2⟩ := hrev input out2 hr
    rcases hn with hn | ⟨newTd2, h3, h4⟩
    · rw [hn] at h1
      cases h1
    · rw [h3] at h1
      cases h1
      rw [h4] at h2
      cases h2
  | updateError _ _ out td defs input out2 newTd revision err hd htd hrw hin hr hnew hrv hu =>
    have h := hok (updateCall f revision) (by simp)
    simp [World.errorOf, updateCall, hu] at h
  | waitError _ _ out td defs input out2 newTd revision result err hd htd hrw hin hr hnew hrv
      hu hw =>
    have h := hok (waitCall f) (by simp)
    simp [World.errorOf, waitCall, hw] at h
  | completed => exact ⟨rfl, rfl⟩

/-- The theorem at the end-to-end example: one container "old/img:1.0" and
-v "old/img:2.0" in a world where everything succeeds. -/
theorem calls_in_fixed_order_witness :
    (main (happyWorld (sampleTaskDefinition ["old/img:1.0"]))
        (sampleFlags "old/img:2.0")).calls.map Call.op
      = [Op.describe, Op.register, Op.update, Op.wait] ∧
    (main (happyWorld (sampleTaskDefinition ["old/img:1.0"]))
        (sampleFlags "old/img:2.0")).exit = Exit.completed :=
  calls_in_fixed_order (happyWorld (sampleTaskDefinition ["old/img:1.0"]))
    (sampleFlags "old/img:2.0") (by decide) rfl (by decide) (by decide)
    (fun out h => by
      cases h
      exact ⟨_, rfl, by decide⟩)
    (fun input out h => by
      cases h
      exact ⟨_, _, rfl, rfl⟩)

/-- C6 (as stated) fails: all five flags are present, the -v entry is well
formed, the session is built and the describe call succeeds, but the fetched
definition has no task role ARN; building the register request dereferences
it, and the run ends after the describe call alone. It fails too when the
session is not built: the run faults before any call, so no call fails and
none of the four is made. -/
theorem run_stops_after_describe_without_task_role :
    (sampleFlags "old/img:2.0").AllPresent ∧
    (happyWorld { sampleTaskDefinition ["old/img:1.0"] with TaskRoleArn := none }).NewSession
      (sampleFlags "old/img:2.0").region = none ∧
    (∀ c ∈ (main (noSessionWorld (sampleTaskDefinition ["old/img:1.0"]))
        (sampleFlags "old/img:2.0")).calls,
      (noSessionWorld (sampleTaskDefinition ["old/img:1.0"])).errorOf c = none) ∧
    (main (noSessionWorld (sampleTaskDefinition ["old/img:1.0"]))
        (sampleFlags "old/img:2.0")).calls = [] ∧
    (∀ e ∈ Split (sampleFlags "old/img:2.0").imageVersions ',', twoNonEmptyParts e = true) ∧
    (∀ c ∈ (main (happyWorld { sampleTaskDefinition ["old/img:1.0"] with TaskRoleArn := none })
        (sampleFlags "old/img:2.0")).calls,
      (happyWorld { sampleTaskDefinition ["old/img:1.0"] with TaskRoleArn := none }).errorOf c
        = none) ∧
    (main (happyWorld { sampleTaskDefinition ["old/img:1.0"] with TaskRoleArn := none })
        (sampleFlags "old/img:2.0")).calls.map Call.op = [Op.describe] ∧
    (main (happyWorld { sampleTaskDefinition ["old/img:1.0"] with TaskRoleArn := none })
        (sampleFlags "old/img:2.0")).exit = Exit.panicked := by
  decide

/-- C8: in every run that reaches its end, the register request carries the
container list produced by the rewrite loop, the -t family, and the execution
role ARN, task role ARN, network mode, volumes, placement constraints,
compatibilities, CPU and memory of the fetched definition; the update request
carries the -c cluster, the -s service and family, colon, the decimal form of
the revision that the register response returned. -/
theorem successful_run_payloads (w : World) (f : Flags)
    (hdone : (main w f).exit = Exit.completed) :
    ∃ td defs out2 newTd revision,
      w.DescribeTaskDefinition ⟨some f.taskFamily⟩ = Except.ok ⟨some td⟩ ∧
      rewriteImages (Split f.imageVersions ',') td.ContainerDefinitions = Rewritten.done defs ∧
      w.RegisterTaskDefinition
        { ContainerDefinitions := defs
          Family := some f.taskFamily
          ExecutionRoleArn := td.ExecutionRoleArn
          TaskRoleArn := td.TaskRoleArn
          NetworkMode := td.NetworkMode
          Volumes := td.Volumes
          PlacementConstraints := td.PlacementConstraints
          RequiresCompatibilities := td.RequiresCompatibilities
          Cpu := td.Cpu
          Memory := td.Memory } = Except.ok out2 ∧
      out2.TaskDefinition = some newTd ∧ newTd.Revision = some revision ∧
      (main w f).calls =
        [ Call.DescribeTaskDefinition ⟨some f.taskFamily⟩,
          Call.RegisterTaskDefinition
            { ContainerDefinitions := defs
              Family := some f.taskFamily
              ExecutionRoleArn := td.ExecutionRoleArn
              TaskRoleArn := td.TaskRoleArn
              NetworkMode := td.NetworkMode
              Volumes := td.Volumes
              PlacementConstraints := td.PlacementConstraints
              RequiresCompatibilities := td.RequiresCompatibilities
              Cpu := td.Cpu
              Memory := td.Memory },
          Call.UpdateService
            { Cluster := some f.clusterName
              Service := some f.serviceName
              TaskDefinition := some (f.taskFamily ++ ":" ++ FormatInt revision) },
          Call.WaitUntilServicesStable
            { Cluster := some f.clusterName, Services := [some f.serviceName] } ] := by
  have hp := main_path w f
  revert hdone
  generalize main w f = r at hp ⊢
  intro hdone
  cases hp with
  | completed _ _ out td defs input out2 newTd revision result hd htd hrw hin hr hnew hrv hu hw =>
    have hinput := (taskDefinitionInput_eq _ _ _ _ hin).1
    subst hinput
    refine ⟨td, defs, out2, newTd, revision, ?_, hrw, hr, hnew, hrv, rfl⟩
    rw [hd]
    cases out
    simp only at htd
    rw [htd]
  | _ => cases hdone

/-- The end-to-end example: one container "old/img:1.0" and -v "old/img:2.0"
register a sole container with image "old/img:2.0", the other fields copied,
and point the service at "family:8", 8 being the revision the register call
returned. -/
theorem successful_run_payloads_witness :
    (main (happyWorld (sampleTaskDefinition ["old/img:1.0"]))
        (sampleFlags "old/img:2.0")).exit = Exit.completed ∧
    (main (happyWorld (sampleTaskDefinition ["old/img:1.0"]))
        (sampleFlags "old/img:2.0")).calls =
      [ Call.DescribeTaskDefinition ⟨some "family"⟩,
        Call.RegisterTaskDefinition
          { ContainerDefinitions := [⟨some "old/img:2.0", "cfg"⟩]
            Family := some "family"
            ExecutionRoleArn := some "arn:exec"
            TaskRoleArn := some "arn:task"
            NetworkMode := some "awsvpc"
            Volumes := ["vol"]
            PlacementConstraints := []
            RequiresCompatibilities := ["FARGATE"]
            Cpu := some "256"
            Memory := some "512" },
        Call.UpdateService ⟨some "cl", some "svc", some "family:8"⟩,
        Call.WaitUntilServicesStable ⟨some "cl", [some "svc"]⟩ ] := by
  obtain ⟨td, defs, out2, newTd, revision, hd, hrw, hr, hnew, hrv, hcalls⟩ :=
    successful_run_payloads (happyWorld (sampleTaskDefinition ["old/img:1.0"]))
      (sampleFlags "old/img:2.0") (by decide)
  refine ⟨by decide, ?_⟩
  have htd : td = sampleTaskDefinition ["old/img:1.0"] := by
    injection hd with h1
    injection h1 with h2
    injection h2 with h3
    exact h3.symm
  subst htd
  have hdefs : defs = [⟨some "old/img:2.0", "cfg"⟩] := by
    have h2 : rewriteImages (Split (sampleFlags "old/img:2.0").imageVersions ',')
        (sampleTaskDefinition ["old/img:1.0"]).ContainerDefinitions
        = Rewritten.done [⟨some "old/img:2.0", "cfg"⟩] := by decide
    rw [h2] at hrw
    injection hrw with h3
    exact h3.symm
  subst hdefs
  have hrevision : revision = 8 := by
    injection hr with h1
    subst h1
    injection hnew with h2
    subst h2
    injection hrv with h3
    exact h3.symm
  subst hrevision
  rw [hcalls]
  decide

/-- C7: in every run, a remote call that returns an error is the last remote
call of the run, the run returns, and the last line printed ends with the
text of that error; and when update-service fails with the cluster-not-found
code, the last line printed is that code followed by the error text, and
wait-until-services-stable is not called. -/
theorem remote_error_ends_run (w : World) (f : Flags) :
    (∀ c err, c ∈ (main w f).calls → w.errorOf c = some err →
      (main w f).calls.getLast? = some c ∧ (main w f).exit = Exit.returned ∧
      ∃ line, (main w f).stdout.getLast? = some line ∧ err.text.data <:+ line.data) ∧
    (∀ input text, Call.UpdateService input ∈ (main w f).calls →
      w.UpdateService input
        = Except.error (GoError.awserr ErrCodeClusterNotFoundException text) →
      (main w f).stdout.getLast? = some (ErrCodeClusterNotFoundException ++ " " ++ text) ∧
      ∀ c ∈ (main w f).calls, c.op ≠ Op.wait) := by
  have hp := main_path w f
  generalize main w f = r at hp ⊢
  cases hp with
  | noCluster => simp
  | noService => simp
  | noFamily => simp
  | noVersion => simp
  | noRegion => simp
  | nilSession => simp
  | describeError _ _ err hd =>
    refine ⟨?_, by simp [describeCall]⟩
    intro c e hc he
    rw [List.mem_singleton] at hc
    subst hc
    simp only [World.errorOf, describeCall, hd, Option.some.injEq] at he
    subst he
    exact ⟨rfl, rfl, _, by simp, text_suffix_fetchErrorLine _⟩
  | nilDefinition _ _ out hd hn =>
    refine ⟨?_, by simp [describeCall]⟩
    intro c e hc he
    rw [List.mem_singleton] at hc
    subst hc
    simp [World.errorOf, describeCall, hd] at he
  | badEntry _ _ out td hd htd hrw =>
    refine ⟨?_, by simp [describeCall]⟩
    intro c e hc he
    rw [List.mem_singleton] at hc
    subst hc
    simp [World.errorOf, describeCall, hd] at he
  | nilImage _ _ out td hd htd hrw =>
    refine ⟨?_, by simp [describeCall]⟩
    intro c e hc he
    rw [List.mem_singleton] at hc
    subst hc
    simp [World.errorOf, describeCall, hd] at he
  | nilField _ _ out td defs hd htd hrw hin =>
    refine ⟨?_, by simp [describeCall]⟩
    intro c e hc he
    rw [List.mem_singleton] at hc
    subst hc
    simp [World.errorOf, describeCall, hd] at he
  | registerError _ _ out td defs input err hd htd hrw hin hr =>
    refine ⟨?_, by simp [describeCall]⟩
    intro c e hc he
    simp only [List.mem_cons, List.mem_singleton, List.not_mem_nil, or_false] at hc
    rcases hc with rfl | rfl
    · simp [World.errorOf, describeCall, hd] at he
    · simp only [World.errorOf, hr, Option.some.injEq] at he
      subst he
      exact ⟨rfl, rfl, _, by simp, text_suffix_fetchErrorLine _⟩
  | nilRevision _ _ out td defs input out2 hd htd hrw hin hr hn =>
    refine ⟨?_, by simp [describeCall]⟩
    intro c e hc he
    simp only [List.mem_cons, List.mem_singleton, List.not_mem_nil, or_false] at hc
    rcases hc with rfl | rfl
    · simp [World.errorOf, describeCall, hd] at he
    · simp [World.errorOf, hr] at he
  | updateError _ _ out td defs input out2 newTd revision err hd htd hrw hin hr hnew hrv hu =>
    constructor
    · intro c e hc he
      simp only [List.mem_cons, List.mem_singleton, List.not_mem_nil, or_false] at hc
      rcases hc with rfl | rfl | rfl
      · simp [World.errorOf, describeCall, hd] at he
      · simp [World.errorOf, hr] at he
      · simp only [World.errorOf, updateCall, hu, Option.some.injEq] at he
        subst he
        exact ⟨rfl, rfl, _, by simp, text_suffix_updateErrorLine _⟩
    · intro input2 text hc he
      simp only [List.mem_cons, List.mem_singleton, List.not_mem_nil, or_false] at hc
      rcases hc with h | h | h
      · cases h
      · cases h
      unfold updateCall at h
      injection h with h
      subst h
      rw [hu] at he
      cases he
      refine ⟨by simp [updateErrorLine_clusterNotFound], ?_⟩
      intro c hc
      simp only [List.mem_cons, List.mem_singleton, List.not_mem_nil, or_false] at hc
      rcases hc with rfl | rfl | rfl <;> simp [describeCall, updateCall, Call.op]
  | waitError _ _ out td defs input out2 newTd revision result err hd htd hrw hin hr hnew hrv
      hu hw =>
    constructor
    · intro c e hc he
      simp only [List.mem_cons, List.mem_singleton, List.not_mem_nil, or_false] at hc
      rcases hc with rfl | rfl | rfl | rfl
      · simp [World.errorOf, describeCall, hd] at he
      · simp [World.errorOf, hr] at he
      · simp [World.errorOf, updateCall, hu] at he
      · simp only [World.errorOf, waitCall, hw, Option.some.injEq] at he
        subst he
        exact ⟨rfl, rfl, Sprintln [err.text], by simp, by simp [Sprintln]⟩
    · intro input2 text hc he
      simp only [List.mem_cons, List.mem_singleton, List.not_mem_nil, or_false] at hc
      rcases hc with h | h | h | h
      · cases h
      · cases h
      · unfold updateCall at h
        injection h with h
        subst h
        rw [hu] at he
        cases he
      · cases h
  | completed _ _ out td defs input out2 newTd revision result hd htd hrw hin hr hnew hrv hu hw =>
    constructor
    · intro c e hc he
      simp only [List.mem_cons, List.mem_singleton, List.not_mem_nil, or_false] at hc
      rcases hc with rfl | rfl | rfl | rfl
      · simp [World.errorOf, describeCall, hd] at he
      · simp [World.errorOf, hr] at he
      · simp [World.errorOf, updateCall, hu] at he
      · simp [World.errorOf, waitCall, hw] at he
    · intro input2 text hc he
      simp only [List.mem_cons, List.mem_singleton, List.not_mem_nil, or_false] at hc
      rcases hc with h | h | h | h
      · cases h
      · cases h
      · unfold updateCall at h
        injection h with h
        subst h
        rw [hu] at he
        cases he
      · cases h

/-- The theorem in a world where update-service answers cluster-not-found:
the last line printed is the code followed by the error text and the calls
stop at update-service. -/
theorem remote_error_ends_run_witness :
    (main (clusterGoneWorld (sampleTaskDefinition ["old/img:1.0"]))
        (sampleFlags "old/img:2.0")).stdout.getLast?
      = some "ClusterNotFoundException ClusterNotFoundException: Cluster not found." ∧
    (main (clusterGoneWorld (sampleTaskDefinition ["old/img:1.0"]))
        (sampleFlags "old/img:2.0")).calls.map Call.op
      = [Op.describe, Op.register, Op.update] ∧
    ∀ c ∈ (main (clusterGoneWorld (sampleTaskDefinition ["old/img:1.0"]))
        (sampleFlags "old/img:2.0")).calls, c.op ≠ Op.wait := by
  have h := (remote_error_ends_run (clusterGoneWorld (sampleTaskDefinition ["old/img:1.0"]))
    (sampleFlags "old/img:2.0")).2 ⟨some "cl", some "svc", some "family:8"⟩
    "ClusterNotFoundException: Cluster not found." (by decide) rfl
  exact ⟨h.1, by decide, h.2⟩

/-- C10: in a run that fetches a definition (the client session is built),
when the fetched definition is present with its execution role ARN, task role
ARN, network mode, CPU and memory and an image in every container, and the
register response carries a revision number, no pointer dereference of the
rewrite, register-building and revision-formatting steps fails: the run does
not end in a fault. -/
theorem no_fault_when_well_populated (w : World) (f : Flags)
    (hsess : w.NewSession f.region = none)
    (hd : ∀ out, w.DescribeTaskDefinition ⟨some f.taskFamily⟩ = Except.ok out →
      ∃ td, out.TaskDefinition = some td ∧ WellPopulated td)
    (hr : ∀ input out, w.RegisterTaskDefinition input = Except.ok out →
      ∃ newTd revision, out.TaskDefinition = some newTd ∧ newTd.Revision = some revision) :
    (main w f).exit ≠ Exit.panicked := by
  have hp := main_path w f
  generalize main w f = r at hp ⊢
  cases hp with
  | nilSession _ err hs => rw [hsess] at hs; cases hs
  | nilDefinition _ _ out hd2 hn =>
    obtain ⟨td, htd, _⟩ := hd out hd2
    rw [hn] at htd
    cases htd
  | nilImage _ _ out td hd2 htd hrw =>
    obtain ⟨td2, htd2, hwp⟩ := hd out hd2
    rw [htd] at htd2
    cases htd2
    exact absurd hrw (rewriteImages_ne_nilImage _ _ hwp.2.2.2.2.2)
  | nilField _ _ out td defs hd2 htd hrw hin =>
    obtain ⟨td2, htd2, hwp⟩ := hd out hd2
    rw [htd] at htd2
    cases htd2
    obtain ⟨input, hin2⟩ := taskDefinitionInput_isSome f.taskFamily td defs hwp
    rw [hin] at hin2
    cases hin2
  | nilRevision _ _ out td defs input out2 hd2 htd hrw hin hr2 hn =>
    obtain ⟨newTd, revision, h1, h2⟩ := hr input out2 hr2
    rcases hn with hn | ⟨newTd2, h3, h4⟩
    · rw [hn] at h1
      cases h1
    · rw [h3] at h1
      cases h1
      rw [h4] at h2
      cases h2
  | _ => simp

/-- The theorem in a world whose responses are well populated. -/
theorem no_fault_when_well_populated_witness :
    WellPopulated (sampleTaskDefinition ["old/img:1.0"]) ∧
    (main (happyWorld (sampleTaskDefinition ["old/img:1.0"]))
        (sampleFlags "old/img:2.0")).exit ≠ Exit.panicked :=
  ⟨by decide,
    no_fault_when_well_populated (happyWorld (sampleTaskDefinition ["old/img:1.0"]))
      (sampleFlags "old/img:2.0") rfl
      (fun out h => by
        cases h
        exact ⟨_, rfl, by decide⟩)
      (fun input out h => by
        cases h
        exact ⟨_, _, rfl, rfl⟩)⟩

end UpdateTask
